import Mathlib

/-!
Verification development for the breakfix repository.

The core under study is the checkpointed graph-execution engine
(src/breakfix/graph.py), the concrete outer/inner state-machine topology it
drives (src/breakfix/nodes.py), and the bounded-retry agent loops
(src/breakfix/agents/ratchet_red/agent.py, ratchet_green/agent.py,
crucible/sentinel.py) together with the coverage intersection check
(src/breakfix/agents/ratchet_green/coverage.py).

The Python code is embedded shallowly: step functions become Lean functions,
the dispatch loop becomes a fuel-indexed recursion that also records an event
trace (checkpoint saves, dispatches, resume/skip log lines), and collaborator
calls (`deps`) become explicit function-typed parameters, indexed by the
dispatch (or attempt) counter so that time-varying collaborator behaviour is
representable.
-/

namespace BreakFix

/-- Result values a step may hand back to the engine, mirroring graph.py:
`MoveToNode` (a partially applied next-step callable), `FinalResult`,
`NodeError`, plus `other` for any Python value outside the three dataclasses
(`truthy` records its Python truthiness, used by `while node_result:`).
`σ` codes the bound continuation (the partial application), `α` the type of
final results. -/
inductive PyValue (σ α : Type) where
  | moveToNode (k : σ)
  | finalResult (v : α)
  | nodeError (e : String)
  | other (truthy : Bool)
deriving DecidableEq, Repr

/-- Python truthiness of a step result: the three dataclasses are truthy,
an `other` value carries its own truthiness. -/
def PyValue.truthy {σ α : Type} : PyValue σ α → Bool
  | .other b => b
  | _ => true

/-- Outcome of `run_graph`: a returned payload (from `FinalResult`), the
implicit `None` return when the `while` loop exits on a falsy value, a raised
`NodeErrored(msg)`, a raised `NodeFailed(ctx) from cause`, or fuel exhaustion
of the embedding (the Python loop has no fuel; `outOfFuel` marks a run the
finite approximation could not finish). -/
inductive RunResult (α : Type) where
  | returned (v : α)
  | returnedNone
  | errored (msg : String)
  | failed (ctx : String) (cause : String)
  | outOfFuel
deriving DecidableEq, Repr

/-- Observable engine events: the resume-time log lines for skipped and
resumed checkpoints, invocation of the start node, a checkpoint write
(`_save_checkpoint`), and a dispatch of a continuation. -/
inductive Ev (σ α : Type) where
  | skippedCp (n : Nat)
  | resumedCp (n : Nat)
  | startInvoked
  | savedCp (n : Nat) (v : PyValue σ α)
  | dispatched (tick : Nat) (k : σ)
deriving DecidableEq, Repr

/-- A file in the checkpoint directory: either a loadable checkpoint
(integer stem, unpicklable payload) or a file `_load_checkpoints` skips
(non-integer stem or pickle error). -/
inductive CpFile (σ α : Type) where
  | valid (num : Nat) (payload : PyValue σ α)
  | invalid
deriving DecidableEq, Repr

variable {σ α : Type}

/-- Checkpoints that survive the try/except filter of `_load_checkpoints`. -/
def validCps : List (CpFile σ α) → List (Nat × PyValue σ α) :=
  List.filterMap fun f => match f with
    | .valid n p => some (n, p)
    | .invalid => none

/-- Maximum of a list of naturals, 0 on the empty list (only used on
nonempty lists, matching the guarded `max(...)` in `_load_checkpoints`). -/
def listMax : List Nat → Nat := List.foldr max 0

/-- Embedding of `_load_checkpoints`: filter loadable files, sort them by
checkpoint number, and compute the next free number (`max + 1`, or 1 when
no checkpoint loads). -/
def loadCheckpoints (files : List (CpFile σ α)) :
    List (Nat × PyValue σ α) × Nat :=
  let cps := validCps files
  (cps.insertionSort (fun a b => a.1 ≤ b.1),
    if cps.isEmpty then 1 else listMax (cps.map Prod.fst) + 1)

/-- Embedding of the `while node_result:` dispatch loop of `run_graph`.
`step tick k` is the awaited call `fn(deps=deps)` of the continuation coded
`k` at dispatch index `tick` (an `Except.error` is an exception escaping the
step). `cp` says whether a checkpoint directory is configured. `n` is
`next_checkpoint_num`. Returns the run outcome and the emitted event
trace. -/
def graphLoop (step : Nat → σ → Except String (PyValue σ α)) (cp : Bool) :
    Nat → PyValue σ α → Nat → Nat → RunResult α × List (Ev σ α)
  | 0, _, _, _ => (.outOfFuel, [])
  | fuel+1, cur, n, tick =>
    if cur.truthy then
      match cur with
      | .moveToNode k =>
        let evs := if cp then [Ev.savedCp n (.moveToNode k), Ev.dispatched tick k]
                   else [Ev.dispatched tick k]
        match step tick k with
        | .error e => (.failed "Node execution failed" e, evs)
        | .ok next =>
          let p := graphLoop step cp fuel next (if cp then n + 1 else n) (tick + 1)
          (p.1, evs ++ p.2)
      | .finalResult v => (.returned v, [])
      | .nodeError e => (.errored e, [])
      | .other _b =>
        -- a truthy value outside the three variants matches no case of the
        -- Python `match`; control falls through and the loop re-tests the
        -- same value forever
        graphLoop step cp fuel cur n tick
    else (.returnedNone, [])

/-- Embedding of `run_graph`. `startRes` is the result of awaiting
`start_node(*args, **kwargs, deps=deps)` (an `Except.error` is an exception
escaping it). `dir` is `none` when no checkpoint directory is configured,
and `some files` for an existing checkpoint directory with the given
contents. `fuel` bounds the number of loop iterations of the embedding. -/
def runGraph (startRes : Except String (PyValue σ α))
    (step : Nat → σ → Except String (PyValue σ α))
    (dir : Option (List (CpFile σ α))) (fuel : Nat) :
    RunResult α × List (Ev σ α) :=
  match dir with
  | none =>
    match startRes with
    | .error e => (.failed "Initial node failed" e, [.startInvoked])
    | .ok v =>
      let p := graphLoop step false fuel v 1 0
      (p.1, .startInvoked :: p.2)
  | some files =>
    let loaded := loadCheckpoints files
    match loaded.1.getLast? with
    | none =>
      match startRes with
      | .error e => (.failed "Initial node failed" e, [.startInvoked])
      | .ok v =>
        let p := graphLoop step true fuel v loaded.2 0
        (p.1, .startInvoked :: p.2)
    | some lastCp =>
      let p := graphLoop step true fuel lastCp.2 loaded.2 0
      (p.1, (loaded.1.dropLast.map fun c => Ev.skippedCp c.1)
        ++ Ev.resumedCp lastCp.1 :: p.2)

/-- Checkpoint numbers written during a run, in trace order. -/
def saveNums : List (Ev σ α) → List Nat :=
  List.filterMap fun e => match e with
    | .savedCp n _ => some n
    | _ => none

/-- Checkpoint records (number and payload) written during a run. -/
def savedPairs : List (Ev σ α) → List (Nat × PyValue σ α) :=
  List.filterMap fun e => match e with
    | .savedCp n v => some (n, v)
    | _ => none

/-- Discipline of a checkpointed trace: every checkpoint save is immediately
followed by the dispatch of exactly the continuation it persisted, and every
dispatch is immediately preceded by its save; all other events may appear
between such pairs. -/
def cpDispatchDiscipline [DecidableEq σ] [DecidableEq α] :
    List (Ev σ α) → Bool
  | [] => true
  | .savedCp _ v :: .dispatched _ k :: rest =>
    v == PyValue.moveToNode k && cpDispatchDiscipline rest
  | .savedCp _ _ :: _ => false
  | .dispatched _ _ :: _ => false
  | _ :: rest => cpDispatchDiscipline rest

section EngineLemmas

variable {σ α : Type}
variable (step : Nat → σ → Except String (PyValue σ α))

theorem graphLoop_fst_congr (cp cp2 : Bool) (fuel : Nat) :
    ∀ (cur : PyValue σ α) (n n2 tick : Nat),
    (graphLoop step cp fuel cur n tick).1 = (graphLoop step cp2 fuel cur n2 tick).1 := by
  induction fuel with
  | zero => intro cur n n2 tick; rfl
  | succ f ih =>
    intro cur n n2 tick
    cases cur with
    | moveToNode k =>
      simp only [graphLoop, PyValue.truthy, if_true]
      cases hstep : step tick k with
      | error e => rfl
      | ok next => simpa using ih next (if cp then n + 1 else n) (if cp2 then n2 + 1 else n2) (tick + 1)
    | finalResult v => rfl
    | nodeError e => rfl
    | other b =>
      cases b with
      | false => rfl
      | true => simpa [graphLoop, PyValue.truthy] using ih (.other true) n n2 tick

theorem graphLoop_fst_mono (cp : Bool) (fuel : Nat) :
    ∀ (fuel2 : Nat) (cur : PyValue σ α) (n tick : Nat), fuel ≤ fuel2 →
    (graphLoop step cp fuel cur n tick).1 ≠ .outOfFuel →
    (graphLoop step cp fuel2 cur n tick).1 = (graphLoop step cp fuel cur n tick).1 := by
  induction fuel with
  | zero => intro fuel2 cur n tick _ hne; exact absurd rfl hne
  | succ f ih =>
    intro fuel2 cur n tick hle hne
    cases fuel2 with
    | zero => omega
    | succ f2 =>
      cases cur with
      | moveToNode k =>
        simp only [graphLoop, PyValue.truthy, if_true] at hne ⊢
        cases hstep : step tick k with
        | error e => simp [hstep]
        | ok next =>
          simp only [hstep] at hne ⊢
          exact ih f2 next (if cp then n + 1 else n) (tick + 1)
            (Nat.le_of_succ_le_succ hle) hne
      | finalResult v => rfl
      | nodeError e => rfl
      | other b =>
        cases b with
        | false => rfl
        | true =>
          simp only [graphLoop, PyValue.truthy] at hne ⊢
          exact ih f2 (.other true) n tick (Nat.le_of_succ_le_succ hle) hne

theorem saveNums_eq_map_fst (t : List (Ev σ α)) :
    saveNums t = (savedPairs t).map Prod.fst := by
  induction t with
  | nil => rfl
  | cons e rest ih => cases e <;> simp [saveNums, savedPairs] at ih ⊢ <;> exact ih

theorem savedPairs_keys_range (fuel : Nat) :
    ∀ (cur : PyValue σ α) (n tick : Nat),
    (savedPairs (graphLoop step true fuel cur n tick).2).map Prod.fst
      = List.range' n (savedPairs (graphLoop step true fuel cur n tick).2).length := by
  induction fuel with
  | zero => intro cur n tick; rfl
  | succ f ih =>
    intro cur n tick
    cases cur with
    | moveToNode k =>
      simp only [graphLoop, PyValue.truthy, if_true]
      cases hstep : step tick k with
      | error e => simp [savedPairs]
      | ok next =>
        simp only [hstep]
        have h := ih next (n + 1) (tick + 1)
        simp [savedPairs, List.range'_succ] at h ⊢
        exact h
    | finalResult v => simp [graphLoop, PyValue.truthy, savedPairs]
    | nodeError e => simp [graphLoop, PyValue.truthy, savedPairs]
    | other b =>
      cases b with
      | false => simp [graphLoop, PyValue.truthy, savedPairs]
      | true => simpa [graphLoop, PyValue.truthy] using ih (.other true) n tick

theorem savedPairs_loop_nocp (fuel : Nat) :
    ∀ (cur : PyValue σ α) (n tick : Nat),
    savedPairs (graphLoop step false fuel cur n tick).2 = [] := by
  induction fuel with
  | zero => intro cur n tick; rfl
  | succ f ih =>
    intro cur n tick
    cases cur with
    | moveToNode k =>
      simp only [graphLoop, PyValue.truthy, if_true]
      cases hstep : step tick k with
      | error e => simp [savedPairs]
      | ok next => simpa [savedPairs] using ih next n (tick + 1)
    | finalResult v => simp [graphLoop, PyValue.truthy, savedPairs]
    | nodeError e => simp [graphLoop, PyValue.truthy, savedPairs]
    | other b =>
      cases b with
      | false => simp [graphLoop, PyValue.truthy, savedPairs]
      | true => simpa [graphLoop, PyValue.truthy] using ih (.other true) n tick

theorem discipline_loop [DecidableEq σ] [DecidableEq α] (fuel : Nat) :
    ∀ (cur : PyValue σ α) (n tick : Nat),
    cpDispatchDiscipline (graphLoop step true fuel cur n tick).2 = true := by
  induction fuel with
  | zero => intro cur n tick; rfl
  | succ f ih =>
    intro cur n tick
    cases cur with
    | moveToNode k =>
      simp only [graphLoop, PyValue.truthy, if_true]
      cases hstep : step tick k with
      | error e => simp [cpDispatchDiscipline]
      | ok next => simpa [cpDispatchDiscipline] using ih next (n + 1) (tick + 1)
    | finalResult v => simp [graphLoop, PyValue.truthy, cpDispatchDiscipline]
    | nodeError e => simp [graphLoop, PyValue.truthy, cpDispatchDiscipline]
    | other b =>
      cases b with
      | false => simp [graphLoop, PyValue.truthy, cpDispatchDiscipline]
      | true => simpa [graphLoop, PyValue.truthy] using ih (.other true) n tick

theorem startInvoked_not_mem_loop (cp : Bool) (fuel : Nat) :
    ∀ (cur : PyValue σ α) (n tick : Nat),
    Ev.startInvoked ∉ (graphLoop step cp fuel cur n tick).2 := by
  induction fuel with
  | zero => intro cur n tick; simp [graphLoop]
  | succ f ih =>
    intro cur n tick
    cases cur with
    | moveToNode k =>
      simp only [graphLoop, PyValue.truthy, if_true]
      cases hstep : step tick k with
      | error e => cases cp <;> simp
      | ok next =>
        have h := ih next (if cp then n + 1 else n) (tick + 1)
        cases cp <;> simp_all
    | finalResult v => simp [graphLoop, PyValue.truthy]
    | nodeError e => simp [graphLoop, PyValue.truthy]
    | other b =>
      cases b with
      | false => simp [graphLoop, PyValue.truthy]
      | true => simpa [graphLoop, PyValue.truthy] using ih (.other true) n tick

end EngineLemmas

theorem listMax_cons (b : Nat) (rest : List Nat) :
    listMax (b :: rest) = max b (listMax rest) := rfl

theorem le_listMax {l : List Nat} {a : Nat} (h : a ∈ l) : a ≤ listMax l := by
  induction l with
  | nil => cases h
  | cons b rest ih =>
    rcases List.mem_cons.mp h with rfl | hm
    · rw [listMax_cons]; omega
    · have := ih hm; rw [listMax_cons]; omega

theorem listMax_mem {l : List Nat} (h : l ≠ []) : listMax l ∈ l := by
  induction l with
  | nil => exact absurd rfl h
  | cons b rest ih =>
    cases rest with
    | nil => simp [listMax]
    | cons c cs =>
      rw [listMax_cons]
      rcases Nat.le_total b (listMax (c :: cs)) with hle | hle
      · rw [Nat.max_eq_right hle]; exact List.mem_cons_of_mem _ (ih (by simp))
      · rw [Nat.max_eq_left hle]; exact List.mem_cons_self _ _

theorem listMax_range_one (m : Nat) : listMax (List.range' 1 m) = m := by
  cases m with
  | zero => rfl
  | succ m0 =>
    have hne : List.range' 1 (m0 + 1) ≠ [] := by simp
    have h1 : listMax (List.range' 1 (m0 + 1)) ≤ m0 + 1 := by
      have := listMax_mem hne
      have := List.mem_range'_1.mp this
      omega
    have h2 : m0 + 1 ≤ listMax (List.range' 1 (m0 + 1)) :=
      le_listMax (List.mem_range'_1.mpr (by omega))
    omega

instance instCpKeyTotal {σ α : Type} :
    IsTotal (Nat × PyValue σ α) (fun a b => a.1 ≤ b.1) :=
  ⟨fun a b => Nat.le_total a.1 b.1⟩

instance instCpKeyTrans {σ α : Type} :
    IsTrans (Nat × PyValue σ α) (fun a b => a.1 ≤ b.1) :=
  ⟨fun _ _ _ => Nat.le_trans⟩

section MoreEngineLemmas

variable {σ α : Type}
variable (step : Nat → σ → Except String (PyValue σ α))

theorem sorted_key_le_getLast {l : List (Nat × PyValue σ α)}
    (hs : List.Sorted (fun a b => a.1 ≤ b.1) l) (hne : l ≠ []) :
    ∀ a ∈ l, a.1 ≤ (l.getLast hne).1 := by
  induction l with
  | nil => exact absurd rfl hne
  | cons x rest ih =>
    intro a ha
    cases rest with
    | nil =>
      rcases List.mem_cons.mp ha with rfl | hm
      · exact Nat.le_refl _
      · cases hm
    | cons y ys =>
      have hlast : (x :: y :: ys).getLast hne = (y :: ys).getLast (by simp) := by
        simp [List.getLast]
      rw [hlast]
      rcases List.mem_cons.mp ha with rfl | hm
      · have hxy : ∀ b ∈ y :: ys, a.1 ≤ b.1 := (List.sorted_cons.mp hs).1
        exact hxy _ (List.getLast_mem _)
      · exact ih (List.sorted_cons.mp hs).2 (by simp) a hm

theorem discipline_skip_events [DecidableEq σ] [DecidableEq α]
    (cps : List (Nat × PyValue σ α)) (rest : List (Ev σ α)) :
    cpDispatchDiscipline ((cps.map fun c => Ev.skippedCp c.1) ++ rest)
      = cpDispatchDiscipline rest := by
  induction cps with
  | nil => rfl
  | cons c cs ih => simpa [cpDispatchDiscipline] using ih

theorem dispatched_mem_error (fuel : Nat) :
    ∀ (cur : PyValue σ α) (cp : Bool) (n tick t0 : Nat) (k : σ) (e : String),
    Ev.dispatched t0 k ∈ (graphLoop step cp fuel cur n tick).2 →
    step t0 k = .error e →
    (graphLoop step cp fuel cur n tick).1 = .failed "Node execution failed" e := by
  induction fuel with
  | zero => intro cur cp n tick t0 k e hmem _; simp [graphLoop] at hmem
  | succ f ih =>
    intro cur cp n tick t0 k e hmem hstep
    cases cur with
    | moveToNode k2 =>
      simp only [graphLoop, PyValue.truthy, if_true] at hmem ⊢
      cases hstep2 : step tick k2 with
      | error e2 =>
        simp only [hstep2] at hmem ⊢
        have : t0 = tick ∧ k = k2 := by
          cases cp <;> simp_all
        obtain ⟨rfl, rfl⟩ := this
        rw [hstep] at hstep2
        simpa using hstep2.symm
      | ok next =>
        simp only [hstep2] at hmem ⊢
        by_cases hkk : t0 = tick ∧ k = k2
        · obtain ⟨rfl, rfl⟩ := hkk
          rw [hstep] at hstep2; cases hstep2
        · have hrest : Ev.dispatched t0 k
              ∈ (graphLoop step cp f next (if cp then n + 1 else n) (tick + 1)).2 := by
            cases cp <;> simp_all <;> tauto
          exact ih next cp (if cp then n + 1 else n) (tick + 1) t0 k e hrest hstep
    | finalResult v => simp [graphLoop, PyValue.truthy] at hmem
    | nodeError e2 => simp [graphLoop, PyValue.truthy] at hmem
    | other b =>
      cases b with
      | false => simp [graphLoop, PyValue.truthy] at hmem
      | true =>
        simp only [graphLoop, PyValue.truthy] at hmem ⊢
        exact ih (.other true) cp n tick t0 k e hmem hstep

theorem dispatched_mem_nodeError (fuel : Nat) :
    ∀ (cur : PyValue σ α) (cp : Bool) (n tick t0 : Nat) (k : σ) (m : String),
    Ev.dispatched t0 k ∈ (graphLoop step cp fuel cur n tick).2 →
    step t0 k = .ok (.nodeError m) →
    (graphLoop step cp fuel cur n tick).1 ≠ .outOfFuel →
    (graphLoop step cp fuel cur n tick).1 = .errored m := by
  induction fuel with
  | zero => intro cur cp n tick t0 k m hmem _ _; simp [graphLoop] at hmem
  | succ f ih =>
    intro cur cp n tick t0 k m hmem hstep hne
    cases cur with
    | moveToNode k2 =>
      simp only [graphLoop, PyValue.truthy, if_true] at hmem hne ⊢
      cases hstep2 : step tick k2 with
      | error e2 =>
        simp only [hstep2] at hmem ⊢
        have : t0 = tick ∧ k = k2 := by
          cases cp <;> simp_all
        obtain ⟨rfl, rfl⟩ := this
        rw [hstep] at hstep2; cases hstep2
      | ok next =>
        simp only [hstep2] at hmem hne ⊢
        by_cases hkk : t0 = tick ∧ k = k2
        · obtain ⟨rfl, rfl⟩ := hkk
          rw [hstep] at hstep2
          have hnext : next = PyValue.nodeError m := by
            cases hstep2; rfl
          subst hnext
          cases f with
          | zero => exact absurd rfl hne
          | succ f2 => simp [graphLoop, PyValue.truthy]
        · have hrest : Ev.dispatched t0 k
              ∈ (graphLoop step cp f next (if cp then n + 1 else n) (tick + 1)).2 := by
            cases cp <;> simp_all <;> tauto
          exact ih next cp (if cp then n + 1 else n) (tick + 1) t0 k m hrest hstep hne
    | finalResult v => simp [graphLoop, PyValue.truthy] at hmem
    | nodeError e2 => simp [graphLoop, PyValue.truthy] at hmem
    | other b =>
      cases b with
      | false => simp [graphLoop, PyValue.truthy] at hmem
      | true =>
        simp only [graphLoop, PyValue.truthy] at hmem hne ⊢
        exact ih (.other true) cp n tick t0 k m hmem hstep hne

theorem runGraph_reduces (startRes : Except String (PyValue σ α))
    (dir : Option (List (CpFile σ α))) (fuel : Nat) :
    (∃ e, startRes = Except.error e
      ∧ (runGraph startRes step dir fuel).1 = .failed "Initial node failed" e
      ∧ ∀ t0 (k : σ), Ev.dispatched t0 k ∉ (runGraph startRes step dir fuel).2)
  ∨ (∃ (u : PyValue σ α) (cp : Bool) (n0 : Nat),
      (runGraph startRes step dir fuel).1 = (graphLoop step cp fuel u n0 0).1
      ∧ ∀ t0 (k : σ), (Ev.dispatched t0 k ∈ (runGraph startRes step dir fuel).2
          ↔ Ev.dispatched t0 k ∈ (graphLoop step cp fuel u n0 0).2)) := by
  cases dir with
  | none =>
    cases startRes with
    | error e => exact Or.inl ⟨e, rfl, by simp [runGraph], by simp [runGraph]⟩
    | ok u =>
      refine Or.inr ⟨u, false, 1, by simp [runGraph], ?_⟩
      intro t0 k
      simp [runGraph]
  | some files =>
    cases hlast : (loadCheckpoints files).1.getLast? with
    | none =>
      cases startRes with
      | error e =>
        exact Or.inl ⟨e, rfl, by simp [runGraph, hlast], by simp [runGraph, hlast]⟩
      | ok u =>
        refine Or.inr ⟨u, true, (loadCheckpoints files).2, by simp [runGraph, hlast], ?_⟩
        intro t0 k
        simp [runGraph, hlast]
    | some lastCp =>
      refine Or.inr ⟨lastCp.2, true, (loadCheckpoints files).2,
        by simp [runGraph, hlast], ?_⟩
      intro t0 k
      simp [runGraph, hlast]
      intro h
      rcases List.mem_map.mp (List.mem_of_mem_dropLast h) with ⟨c, _, hc⟩
      cases hc

end MoreEngineLemmas

theorem saveNums_append {σ α : Type} (a b : List (Ev σ α)) :
    saveNums (a ++ b) = saveNums a ++ saveNums b := by
  simp [saveNums]

theorem saveNums_skip_events {σ α : Type} (cps : List (Nat × PyValue σ α)) :
    saveNums (cps.map fun c => (Ev.skippedCp c.1 : Ev σ α)) = [] := by
  induction cps with
  | nil => rfl
  | cons c cs ih => simpa [saveNums] using ih

/-- Claim C1: checkpoint protocol of `run_graph`. The checkpoint numbers
written during a run form the contiguous block starting at the next free
number computed by `_load_checkpoints` (so they are strictly increasing, and
start at 1 for a run with no pre-existing checkpoints); every pre-existing
checkpoint has a strictly smaller number than every written one (never
overwritten); every checkpoint is persisted immediately before its
continuation is dispatched; and on resume with existing checkpoints, all but
the highest-numbered checkpoint are only logged as skipped, the start step is
never invoked, and the run continues from the highest payload. -/
theorem c1_checkpoint_protocol {σ α : Type} [DecidableEq σ] [DecidableEq α]
    (startRes : Except String (PyValue σ α))
    (step : Nat → σ → Except String (PyValue σ α))
    (files : List (CpFile σ α)) (fuel : Nat) :
    saveNums (runGraph startRes step (some files) fuel).2
      = List.range' (loadCheckpoints files).2
          (saveNums (runGraph startRes step (some files) fuel).2).length
  ∧ (validCps files = [] → (loadCheckpoints files).2 = 1)
  ∧ (∀ c ∈ validCps files, c.1 < (loadCheckpoints files).2)
  ∧ cpDispatchDiscipline (runGraph startRes step (some files) fuel).2 = true
  ∧ (∀ lastCp, (loadCheckpoints files).1.getLast? = some lastCp →
      Ev.startInvoked ∉ (runGraph startRes step (some files) fuel).2
      ∧ (runGraph startRes step (some files) fuel).2
          = ((loadCheckpoints files).1.dropLast.map fun c => Ev.skippedCp c.1)
            ++ Ev.resumedCp lastCp.1
              :: (graphLoop step true fuel lastCp.2 (loadCheckpoints files).2 0).2
      ∧ (runGraph startRes step (some files) fuel).1
          = (graphLoop step true fuel lastCp.2 (loadCheckpoints files).2 0).1
      ∧ ∀ c ∈ (loadCheckpoints files).1.dropLast, c.1 ≤ lastCp.1) := by
  have hkeys : ∀ (u : PyValue σ α) (n0 : Nat),
      saveNums (graphLoop step true fuel u n0 0).2
        = List.range' n0 (saveNums (graphLoop step true fuel u n0 0).2).length := by
    intro u n0
    rw [saveNums_eq_map_fst, List.length_map]
    exact savedPairs_keys_range step fuel u n0 0
  refine ⟨?_, ?_, ?_, ?_, ?_⟩
  · cases hlast : (loadCheckpoints files).1.getLast? with
    | none =>
      cases startRes with
      | error e => simp [runGraph, hlast, saveNums]
      | ok u =>
        have h := hkeys u (loadCheckpoints files).2
        simp only [runGraph, hlast]
        simpa [saveNums] using h
    | some lastCp =>
      have h := hkeys lastCp.2 (loadCheckpoints files).2
      simp only [runGraph, hlast]
      rw [saveNums_append, saveNums_skip_events]
      simpa [saveNums] using h
  · intro h
    simp [loadCheckpoints, h]
  · intro c hc
    have hne : (validCps files).isEmpty = false := by
      cases hemp : (validCps files) with
      | nil => rw [hemp] at hc; cases hc
      | cons a l => simp
    have hle : c.1 ≤ listMax ((validCps files).map Prod.fst) :=
      le_listMax (List.mem_map_of_mem Prod.fst hc)
    simp only [loadCheckpoints, hne]
    simp
    omega
  · cases hlast : (loadCheckpoints files).1.getLast? with
    | none =>
      cases startRes with
      | error e => simp [runGraph, hlast, cpDispatchDiscipline]
      | ok u =>
        simp only [runGraph, hlast]
        have h := discipline_loop step fuel u (loadCheckpoints files).2 0
        simpa [cpDispatchDiscipline] using h
    | some lastCp =>
      simp only [runGraph, hlast]
      rw [discipline_skip_events]
      have h := discipline_loop step fuel lastCp.2 (loadCheckpoints files).2 0
      simpa [cpDispatchDiscipline] using h
  · intro lastCp hlast
    have hne : (loadCheckpoints files).1 ≠ [] := by
      intro h
      rw [h] at hlast
      cases hlast
    have hsorted : List.Sorted (fun (a b : Nat × PyValue σ α) => a.1 ≤ b.1)
        (loadCheckpoints files).1 := by
      simp only [loadCheckpoints]
      exact List.sorted_insertionSort _ _
    have hlasteq : (loadCheckpoints files).1.getLast hne = lastCp := by
      have := List.getLast?_eq_getLast (loadCheckpoints files).1 hne
      rw [this] at hlast
      exact Option.some.inj hlast
    refine ⟨?_, by simp [runGraph, hlast], by simp [runGraph, hlast], ?_⟩
    · simp only [runGraph, hlast]
      intro hmem
      rcases List.mem_append.mp hmem with h | h
      · rcases List.mem_map.mp h with ⟨c, _, hc⟩
        cases hc
      · rcases List.mem_cons.mp h with h | h
        · cases h
        · exact startInvoked_not_mem_loop step true fuel lastCp.2 (loadCheckpoints files).2 0 h
    · intro c hc
      have := sorted_key_le_getLast hsorted hne c (List.mem_of_mem_dropLast hc)
      rwa [hlasteq] at this

/-- Pre-existing checkpoint files for the C1 witness: two loadable
checkpoints and one file the loader skips. -/
def filesC1 : List (CpFile Unit Nat) :=
  [CpFile.valid 1 (.nodeError "old"), CpFile.invalid, CpFile.valid 2 (.finalResult 5)]

/-- Witness for C1: resuming on a directory with checkpoints 1 and 2 skips
checkpoint 1, never invokes the start step, resumes from the payload of
checkpoint 2, and every lower checkpoint number is at most the resumed one. -/
theorem c1_checkpoint_protocol_witness :
    Ev.startInvoked ∉ (runGraph (Except.ok (.other false)) stepC10 (some filesC1) 5).2
  ∧ (runGraph (Except.ok (.other false)) stepC10 (some filesC1) 5).1
      = (graphLoop stepC10 true 5 (.finalResult 5) (loadCheckpoints filesC1).2 0).1 := by
  have h := (c1_checkpoint_protocol (Except.ok (.other false)) stepC10 filesC1 5).2.2.2.2
    (2, .finalResult 5) (by decide)
  exact ⟨h.1, h.2.2.1⟩

section ReplayLemmas

variable {σ α : Type}
variable (stepf : σ → Except String (PyValue σ α))

theorem graphLoop_fst_timeless (fuel : Nat) :
    ∀ (cur : PyValue σ α) (cp cp2 : Bool) (n n2 tick tick2 : Nat),
    (graphLoop (fun _ => stepf) cp fuel cur n tick).1
      = (graphLoop (fun _ => stepf) cp2 fuel cur n2 tick2).1 := by
  induction fuel with
  | zero => intro cur cp cp2 n n2 tick tick2; rfl
  | succ f ih =>
    intro cur cp cp2 n n2 tick tick2
    cases cur with
    | moveToNode k =>
      simp only [graphLoop, PyValue.truthy, if_true]
      cases hstep : stepf k with
      | error e => simp [hstep]
      | ok next => simp [hstep]; exact ih next cp cp2 _ _ _ _
    | finalResult v => rfl
    | nodeError e => rfl
    | other b =>
      cases b with
      | false => rfl
      | true =>
        simp only [graphLoop, PyValue.truthy]
        exact ih (.other true) cp cp2 n n2 tick tick2

theorem loop_result_of_saved (fuel : Nat) :
    ∀ (cur : PyValue σ α) (n tick j : Nat) (w : PyValue σ α)
      (cp2 : Bool) (n2 tick2 : Nat),
    (graphLoop (fun _ => stepf) true fuel cur n tick).1 ≠ .outOfFuel →
    (j, w) ∈ savedPairs (graphLoop (fun _ => stepf) true fuel cur n tick).2 →
    (graphLoop (fun _ => stepf) cp2 fuel w n2 tick2).1
      = (graphLoop (fun _ => stepf) true fuel cur n tick).1 := by
  induction fuel with
  | zero => intro cur n tick j w cp2 n2 tick2 hne _; exact absurd rfl hne
  | succ f ih =>
    intro cur n tick j w cp2 n2 tick2 hne hmem
    cases cur with
    | moveToNode k =>
      cases hstep : stepf k with
      | error e =>
        have htr : (graphLoop (fun _ => stepf) true (f + 1) (.moveToNode k) n tick).2
            = [Ev.savedCp n (.moveToNode k), Ev.dispatched tick k] := by
          simp [graphLoop, PyValue.truthy, hstep]
        rw [htr] at hmem
        have hmem2 : (j, w) = (n, PyValue.moveToNode k) := by
          simpa [savedPairs] using hmem
        rw [Prod.mk.injEq] at hmem2
        obtain ⟨_, rfl⟩ := hmem2
        exact graphLoop_fst_timeless stepf (f + 1) (.moveToNode k) cp2 true n2 n tick2 tick
      | ok next =>
        have hRHS : (graphLoop (fun _ => stepf) true (f + 1) (.moveToNode k) n tick).1
            = (graphLoop (fun _ => stepf) true f next (n + 1) (tick + 1)).1 := by
          simp [graphLoop, PyValue.truthy, hstep]
        have htr : (graphLoop (fun _ => stepf) true (f + 1) (.moveToNode k) n tick).2
            = Ev.savedCp n (.moveToNode k) :: Ev.dispatched tick k
              :: (graphLoop (fun _ => stepf) true f next (n + 1) (tick + 1)).2 := by
          simp [graphLoop, PyValue.truthy, hstep]
        rw [htr] at hmem
        have hmem3 : (j, w) ∈ ((n, PyValue.moveToNode k)
            :: savedPairs (graphLoop (fun _ => stepf) true f next (n + 1) (tick + 1)).2) := by
          simpa [savedPairs] using hmem
        rw [hRHS] at hne
        rcases List.mem_cons.mp hmem3 with heq | hmem4
        · rw [Prod.mk.injEq] at heq
          obtain ⟨_, rfl⟩ := heq
          exact graphLoop_fst_timeless stepf (f + 1) (.moveToNode k) cp2 true n2 n tick2 tick
        · have hres := ih next (n + 1) (tick + 1) j w cp2 n2 tick2 hne hmem4
          have hmono := graphLoop_fst_mono (fun _ => stepf) cp2 f (f + 1) w n2 tick2
            (Nat.le_succ f) (by rw [hres]; exact hne)
          rw [hRHS, hmono, hres]
    | finalResult v => simp [graphLoop, PyValue.truthy, savedPairs] at hmem
    | nodeError e => simp [graphLoop, PyValue.truthy, savedPairs] at hmem
    | other b =>
      cases b with
      | false => simp [graphLoop, PyValue.truthy, savedPairs] at hmem
      | true =>
        have hRHS : graphLoop (fun _ => stepf) true (f + 1) (PyValue.other true) n tick
            = graphLoop (fun _ => stepf) true f (PyValue.other true) n tick := by
          simp [graphLoop, PyValue.truthy]
        rw [hRHS] at hne hmem
        have hres := ih (.other true) n tick j w cp2 n2 tick2 hne hmem
        have hmono := graphLoop_fst_mono (fun _ => stepf) cp2 f (f + 1) w n2 tick2
          (Nat.le_succ f) (by rw [hres]; exact hne)
        rw [hRHS, hmono, hres]

theorem prefix_keys_range {P rest L : List (Nat × PyValue σ α)}
    (hL : P ++ rest = L)
    (hkeys : L.map Prod.fst = List.range' 1 L.length) :
    P.map Prod.fst = List.range' 1 P.length := by
  subst hL
  rw [List.map_append] at hkeys
  have hsplit : List.range' 1 P.length ++ List.range' (1 + P.length) rest.length
      = List.range' 1 (P ++ rest).length := by
    have h := List.range'_append 1 P.length rest.length 1
    simpa [List.length_append, Nat.add_comm] using h
  rw [← hsplit] at hkeys
  exact (List.append_inj hkeys (by simp)).1

theorem validCps_map (P : List (Nat × PyValue σ α)) :
    validCps (P.map fun c => CpFile.valid c.1 c.2) = P := by
  induction P with
  | nil => rfl
  | cons c cs ih => simpa [validCps] using ih

end ReplayLemmas

/-- Claim C2: replay equivalence. If an uninterrupted checkpointed run (with
deterministic collaborators, modelled as a step function that does not depend
on the dispatch index) reaches terminal value `v`, then interrupting it at
any point — leaving on disk any prefix of the checkpoints it writes — and
resuming `run_graph` on that checkpoint directory again reaches exactly `v`. -/
theorem c2_replay_equivalence {σ α : Type}
    (stepf : σ → Except String (PyValue σ α))
    (startRes : Except String (PyValue σ α)) (fuel : Nat) (v : α)
    (P : List (Nat × PyValue σ α))
    (hfull : (runGraph startRes (fun _ => stepf) (some []) fuel).1 = .returned v)
    (hpre : ∃ rest, P ++ rest
        = savedPairs (runGraph startRes (fun _ => stepf) (some []) fuel).2) :
    (runGraph startRes (fun _ => stepf)
        (some (P.map fun c => CpFile.valid c.1 c.2)) fuel).1 = .returned v := by
  obtain ⟨rest, hrest⟩ := hpre
  have hnil : (loadCheckpoints ([] : List (CpFile σ α))).1.getLast? = none := rfl
  cases startRes with
  | error e => simp [runGraph, hnil] at hfull
  | ok u =>
    have hfull2 : (graphLoop (fun _ => stepf) true fuel u 1 0).1 = .returned v := by
      simpa [runGraph, hnil] using hfull
    have hrest2 : P ++ rest
        = savedPairs (graphLoop (fun _ => stepf) true fuel u 1 0).2 := by
      simpa [runGraph, hnil, savedPairs] using hrest
    by_cases hPe : P = []
    · subst hPe
      simpa [runGraph, hnil] using hfull
    · have hkeysP : P.map Prod.fst = List.range' 1 P.length :=
        prefix_keys_range hrest2
          (savedPairs_keys_range (fun _ => stepf) fuel u 1 0)
      have hsorted : List.Sorted (fun (a b : Nat × PyValue σ α) => a.1 ≤ b.1) P := by
        have hpw : List.Pairwise (fun a b => a ≤ b) (P.map Prod.fst) := by
          rw [hkeysP]
          exact (List.pairwise_lt_range' 1 P.length).imp Nat.le_of_lt
        exact List.pairwise_map.mp hpw
      have hload1 : (loadCheckpoints (P.map fun c => CpFile.valid c.1 c.2)).1 = P := by
        simp only [loadCheckpoints, validCps_map]
        exact List.Sorted.insertionSort_eq hsorted
      have hlastP := List.getLast?_eq_getLast P hPe
      have hlast : (loadCheckpoints (P.map fun c => CpFile.valid c.1 c.2)).1.getLast?
          = some (P.getLast hPe) := by rw [hload1, hlastP]
      have hmemL : ((P.getLast hPe).1, (P.getLast hPe).2)
          ∈ savedPairs (graphLoop (fun _ => stepf) true fuel u 1 0).2 := by
        rw [← hrest2]
        exact List.mem_append_left rest (List.getLast_mem hPe)
      have hres := loop_result_of_saved stepf fuel u 1 0 (P.getLast hPe).1
        (P.getLast hPe).2 true (loadCheckpoints (P.map fun c => CpFile.valid c.1 c.2)).2 0
        (by rw [hfull2]; simp) hmemL
      simp only [runGraph, hlast]
      rw [hres, hfull2]

/-- Deterministic step function for the C2 witness: two continuations then a
terminal value. -/
def stepC2 : Nat → Except String (PyValue Nat Nat) :=
  fun k => if k < 2 then .ok (.moveToNode (k + 1)) else .ok (.finalResult 7)

/-- Checkpoint prefix for the C2 witness: the run is interrupted after
checkpoint 2 was written. -/
def prefixC2 : List (Nat × PyValue Nat Nat) :=
  [(1, .moveToNode 0), (2, .moveToNode 1)]

/-- Witness for C2: a three-continuation run reaches 7; resuming from the
first two written checkpoints reaches 7 again. -/
theorem c2_replay_equivalence_witness :
    ((runGraph (Except.ok (.moveToNode 0)) (fun _ => stepC2) (some []) 10).1
        = .returned 7)
  ∧ (runGraph (Except.ok (.moveToNode 0)) (fun _ => stepC2)
      (some (prefixC2.map fun c => CpFile.valid c.1 c.2)) 10).1 = .returned 7 :=
  ⟨by decide,
    c2_replay_equivalence stepC2 (Except.ok (.moveToNode 0)) 10 7 prefixC2
      (by decide) ⟨[(3, .moveToNode 2)], by decide⟩⟩

/-- Claim C3: an `ErrorSignal` (NodeError) always surfaces as `Signal`
(NodeErrored) with its message intact, and a step-level exception always
surfaces as `Fault` (NodeFailed), never silently dropped: an exception from
the start step raises `NodeFailed("Initial node failed")`; the loop turns a
current `NodeError(m)` into `NodeErrored(m)` at once; if a dispatched step
raises, the run fails with `NodeFailed("Node execution failed")` wrapping the
exception; and if a dispatched step returns `NodeError(m)`, the run (when the
finite embedding does not run out of fuel) raises `NodeErrored(m)`. -/
theorem c3_error_signal_and_fault {σ α : Type}
    (startRes : Except String (PyValue σ α))
    (step : Nat → σ → Except String (PyValue σ α))
    (dir : Option (List (CpFile σ α))) (fuel n tick t0 : Nat) (cp : Bool)
    (k : σ) (e m : String) :
    runGraph (Except.error e) step none fuel
      = (.failed "Initial node failed" e, [.startInvoked])
  ∧ graphLoop step cp (fuel + 1) (.nodeError m) n tick = (.errored m, [])
  ∧ (Ev.dispatched t0 k ∈ (runGraph startRes step dir fuel).2 →
      step t0 k = .error e →
      (runGraph startRes step dir fuel).1 = .failed "Node execution failed" e)
  ∧ (Ev.dispatched t0 k ∈ (runGraph startRes step dir fuel).2 →
      step t0 k = .ok (.nodeError m) →
      (runGraph startRes step dir fuel).1 ≠ .outOfFuel →
      (runGraph startRes step dir fuel).1 = .errored m) := by
  refine ⟨rfl, by simp [graphLoop, PyValue.truthy], ?_, ?_⟩
  · intro hmem hstep
    rcases runGraph_reduces step startRes dir fuel with
      ⟨e2, _, _, hnd⟩ | ⟨u, cp2, n0, hres, hiff⟩
    · exact absurd hmem (hnd t0 k)
    · rw [hres]
      exact dispatched_mem_error step fuel u cp2 n0 0 t0 k e ((hiff t0 k).mp hmem) hstep
  · intro hmem hstep hne
    rcases runGraph_reduces step startRes dir fuel with
      ⟨e2, _, _, hnd⟩ | ⟨u, cp2, n0, hres, hiff⟩
    · exact absurd hmem (hnd t0 k)
    · rw [hres]
      rw [hres] at hne
      exact dispatched_mem_nodeError step fuel u cp2 n0 0 t0 k m
        ((hiff t0 k).mp hmem) hstep hne

/-- Concrete start and step functions for the C3 scenario: the start step
returns a Continuation to step B, and B returns `ErrorSignal("bad")`. -/
def startC3 : Except String (PyValue Unit Nat) := .ok (.moveToNode ())

/-- Step function for the C3 scenario. -/
def stepC3 : Nat → Unit → Except String (PyValue Unit Nat) :=
  fun _ _ => .ok (.nodeError "bad")

/-- Witness for C3: in the scenario start to Continuation(B), B returning
`ErrorSignal("bad")`, the run raises `NodeErrored` carrying exactly "bad". -/
theorem c3_error_signal_and_fault_witness :
    (Ev.dispatched 0 () ∈ (runGraph startC3 stepC3 none 5).2
      ∧ stepC3 0 () = .ok (.nodeError "bad")
      ∧ (runGraph startC3 stepC3 none 5).1 ≠ .outOfFuel)
  ∧ (runGraph startC3 stepC3 none 5).1 = .errored "bad" :=
  ⟨⟨by decide, rfl, by decide⟩,
    (c3_error_signal_and_fault startC3 stepC3 none 5 0 0 0 true () "x" "bad").2.2.2
      (by decide) rfl (by decide)⟩

/-- Claim C4: a `TerminalResult` (FinalResult) always ends the dispatch loop
with the wrapped payload and emits no further event (so no step is dispatched
afterward); with checkpointing disabled (no checkpoint directory) no
checkpoint record is ever written; in particular a start step returning
`FinalResult(v)` with checkpointing disabled returns `v` and writes no
checkpoint. -/
theorem c4_terminal_ends_loop {σ α : Type}
    (startRes : Except String (PyValue σ α))
    (step : Nat → σ → Except String (PyValue σ α))
    (fuel n tick : Nat) (cp : Bool) (v : α) :
    graphLoop step cp (fuel + 1) (.finalResult v) n tick = (.returned v, [])
  ∧ savedPairs (runGraph startRes step none fuel).2 = []
  ∧ runGraph (Except.ok (.finalResult v)) step none (fuel + 1)
      = (.returned v, [.startInvoked]) := by
  refine ⟨by simp [graphLoop, PyValue.truthy], ?_, ?_⟩
  · cases startRes with
    | error e => simp [runGraph, savedPairs]
    | ok u =>
      simp only [runGraph]
      have h := savedPairs_loop_nocp step fuel u 1 0
      simp [savedPairs] at h ⊢
      exact h
  · simp [runGraph, graphLoop, PyValue.truthy]

/-- Claim C10: when a step returns a falsy value outside the three variants
(for example `None`), the `while node_result:` condition fails, the loop
exits silently, and `run_graph` returns `None`: no `NodeErrored`, no
`NodeFailed`, and no checkpoint written beyond the one already persisted for
the dispatched continuation itself. -/
theorem c10_falsy_result_silent_exit {σ α : Type}
    (step : Nat → σ → Except String (PyValue σ α))
    (fuel n tick : Nat) (cp : Bool) (k : σ) :
    graphLoop step cp (fuel + 1) (.other false) n tick = (.returnedNone, [])
  ∧ (step tick k = .ok (.other false) →
      graphLoop step true (fuel + 2) (.moveToNode k) n tick
        = (.returnedNone, [Ev.savedCp n (.moveToNode k), Ev.dispatched tick k]))
  ∧ (runGraph (Except.ok (.other false)) step none (fuel + 1) : RunResult α × List (Ev σ α))
      = (.returnedNone, [.startInvoked]) := by
  refine ⟨by simp [graphLoop, PyValue.truthy], ?_, by simp [runGraph, graphLoop, PyValue.truthy]⟩
  intro hstep
  simp [graphLoop, PyValue.truthy, hstep]

/-- Step function for the C10 witness: the dispatched step returns `None`. -/
def stepC10 : Nat → Unit → Except String (PyValue Unit Nat) :=
  fun _ _ => .ok (.other false)

/-- Witness for C10: dispatching a continuation whose function returns a
falsy non-variant makes the loop exit silently with no further checkpoint. -/
theorem c10_falsy_result_silent_exit_witness :
    stepC10 0 () = .ok (.other false)
  ∧ graphLoop stepC10 true 2 (.moveToNode ()) 1 0
      = (.returnedNone, [Ev.savedCp 1 (.moveToNode ()), Ev.dispatched 0 ()]) :=
  ⟨rfl, (c10_falsy_result_silent_exit stepC10 0 1 0 true ()).2.1 rfl⟩

/-! Inner (unit-scope) topology of src/breakfix/nodes.py: the ratchet
red/green loop, the crucible mutation/sentinel loop and the optimization
step, driven by the same graph engine, plus the outer per-unit processing
step `phase_oracle_node`. -/

/-- Embedding of the `TestCase` dataclass of nodes.py. -/
structure TestCase where
  id : Int
  description : String
  test_function_name : String
deriving DecidableEq, Repr

/-- Embedding of the `UnitWorkItem` dataclass of nodes.py. -/
structure UnitWorkItem where
  name : String
  tests : List TestCase
  code : String
  module_path : String
  line_number : Nat
  end_line_number : Nat
  symbol_type : String
  dependencies : List String
  description : String
deriving DecidableEq, Repr

/-- Embedding of `RatchetRedResult` (agents/ratchet_red/agent.py). -/
structure RatchetRedResult where
  success : Bool
  test_file_path : String
  error : String
  retries : Nat
  pytest_failure : String
  skipped_green : Bool
deriving DecidableEq, Repr

/-- Embedding of `RatchetGreenResult` (agents/ratchet_green/agent.py). -/
structure RatchetGreenResult where
  success : Bool
  error : String
  retries : Nat
deriving DecidableEq, Repr

/-- Embedding of `SurvivingMutant` (agents/crucible/mutation.py). -/
structure SurvivingMutant where
  id : String
  diff : String
deriving DecidableEq, Repr

/-- Embedding of `MutationResult` (agents/crucible/mutation.py); the float
`score` is modelled as a rational. -/
structure MutationResult where
  success : Bool
  score : Rat
  surviving_mutants : List SurvivingMutant
  total_mutants : Nat
  killed_mutants : Nat
  error : String
deriving DecidableEq, Repr

/-- Embedding of `SentinelResult` (agents/crucible/sentinel.py). -/
structure SentinelResult where
  success : Bool
  test_file_path : String
  error : String
  retries : Nat
deriving DecidableEq, Repr

/-- Embedding of `VerificationResult` (agents/crucible/verifier.py). -/
structure VerificationResult where
  killed : Bool
  new_surviving : List String
deriving DecidableEq, Repr

/-- Embedding of `OracleResult` (agents/oracle/agent.py). -/
structure OracleResult where
  success : Bool
  test_cases : List TestCase
  description : String
  error : String
deriving DecidableEq, Repr

/-- Collaborator capabilities consumed by the inner topology, indexed by the
engine dispatch counter so a collaborator may behave differently on each
call; `Except.error` models an exception escaping the call. -/
structure InnerDeps where
  run_ratchet_red : Nat → UnitWorkItem → TestCase → Except String RatchetRedResult
  run_ratchet_green : Nat → UnitWorkItem → TestCase → String → Except String RatchetGreenResult
  run_mutation_testing : Nat → UnitWorkItem → Except String MutationResult
  run_sentinel : Nat → UnitWorkItem → SurvivingMutant → Except String SentinelResult
  verify_mutant_killed : Nat → UnitWorkItem → String → Except String VerificationResult
  agent_optimizer : Nat → String → String → Except String String
  check_regression : Nat → String → Except String Bool

/-- Continuation codes of the inner graph: each constructor is one bound
step function of nodes.py with its captured arguments. -/
inductive InnerNode where
  | iterator (u : UnitWorkItem)
  | red (u : UnitWorkItem) (t : TestCase)
  | green (u : UnitWorkItem) (t : TestCase) (pytest_failure : String)
  | mutation (u : UnitWorkItem)
  | sentinel (u : UnitWorkItem) (surviving : List SurvivingMutant)
  | optimization (u : UnitWorkItem)
deriving DecidableEq, Repr

/-- Embedding of the inner-graph step functions of nodes.py
(`ratchet_iterator_node`, `ratchet_red_node`, `ratchet_green_node`,
`crucible_mutation_node`, `crucible_sentinel_node`,
`crucible_optimization_node`), dispatched by continuation code. -/
def innerStep (d : InnerDeps) : Nat → InnerNode → Except String (PyValue InnerNode String)
  | _tick, .iterator u =>
    match u.tests with
    | [] => .ok (.moveToNode (.mutation u))
    | t :: ts => .ok (.moveToNode (.red { u with tests := ts } t))
  | tick, .red u t => do
    let r ← d.run_ratchet_red tick u t
    if r.success = false then
      pure (.nodeError ("Red phase failed for " ++ u.name ++ ": " ++ r.error))
    else if r.skipped_green then
      pure (.moveToNode (.iterator u))
    else
      pure (.moveToNode (.green u t r.pytest_failure))
  | tick, .green u t pf => do
    let r ← d.run_ratchet_green tick u t pf
    if r.success = false then
      pure (.nodeError ("Green phase failed for " ++ u.name ++ ": " ++ r.error))
    else
      pure (.moveToNode (.iterator u))
  | tick, .mutation u => do
    let r ← d.run_mutation_testing tick u
    if r.success = false then
      pure (.nodeError ("Mutation testing failed: " ++ r.error))
    else if r.score < 1 then
      pure (.moveToNode (.sentinel u r.surviving_mutants))
    else
      pure (.moveToNode (.optimization u))
  | tick, .sentinel u ms =>
    match ms with
    | [] => .ok (.moveToNode (.mutation u))
    | m :: rest => do
      let r ← d.run_sentinel tick u m
      if r.success = false then
        pure (.nodeError ("Failed to kill mutant " ++ m.id ++ ": " ++ r.error))
      else do
        let verification ← d.verify_mutant_killed tick u m.id
        if verification.killed = false then
          pure (.nodeError ("Sentinel test failed to kill mutant " ++ m.id
            ++ ". Still surviving after new test added."))
        else if rest.isEmpty then
          pure (.moveToNode (.mutation u))
        else
          pure (.moveToNode (.sentinel u rest))
  | tick, .optimization u => do
    let optimized ← d.agent_optimizer tick u.name u.code
    let regression ← d.check_regression tick optimized
    if regression then
      pure (.moveToNode (.optimization u))
    else
      pure (.finalResult optimized)

/-- One inner-graph run for a unit, exactly as `phase_oracle_node` invokes
it: `run_graph(inner_unit_start_node, unit=unit, deps=deps)` with no
checkpoint directory; `inner_unit_start_node` immediately returns
`MoveToNode(ratchet_iterator_node, unit)` and cannot raise. -/
def innerRun (d : InnerDeps) (u : UnitWorkItem) (fuel : Nat) :
    RunResult String × List (Ev InnerNode String) :=
  runGraph (Except.ok (.moveToNode (.iterator u))) (innerStep d) none fuel

/-- Test cases consumed by dispatched ratchet-red steps, in dispatch
order. -/
def redTestsOf : List (Ev InnerNode String) → List TestCase :=
  List.filterMap fun e => match e with
    | .dispatched _ (.red _ t) => some t
    | _ => none

/-- Test cases still to be consumed from a given engine value onward. -/
def redPending : PyValue InnerNode String → List TestCase
  | .moveToNode (.iterator u) => u.tests
  | .moveToNode (.red u t) => t :: u.tests
  | .moveToNode (.green u _ _) => u.tests
  | _ => []

theorem redTestsOf_append (a b : List (Ev InnerNode String)) :
    redTestsOf (a ++ b) = redTestsOf a ++ redTestsOf b := by
  simp [redTestsOf]

theorem bind_ok_eq {ε α β : Type} (a : α) (f : α → Except ε β) :
    (do let x ← Except.ok a; f x : Except ε β) = f a := rfl

theorem bind_error_eq {ε α β : Type} (e : ε) (f : α → Except ε β) :
    (do let x ← Except.error e; f x : Except ε β) = .error e := rfl

theorem innerStep_red_eq (d : InnerDeps) (tick : Nat) (u : UnitWorkItem)
    (t : TestCase) (r : RatchetRedResult)
    (hr : d.run_ratchet_red tick u t = .ok r) :
    innerStep d tick (.red u t)
      = if r.success = false then
          .ok (.nodeError ("Red phase failed for " ++ u.name ++ ": " ++ r.error))
        else if r.skipped_green then .ok (.moveToNode (.iterator u))
        else .ok (.moveToNode (.green u t r.pytest_failure)) := by
  simp only [innerStep, hr]
  rfl

theorem innerStep_red_error (d : InnerDeps) (tick : Nat) (u : UnitWorkItem)
    (t : TestCase) (e : String) (hr : d.run_ratchet_red tick u t = .error e) :
    innerStep d tick (.red u t) = .error e := by
  simp only [innerStep, hr]
  rfl

theorem innerStep_iterator_nil (d : InnerDeps) (tick : Nat) (u : UnitWorkItem)
    (hts : u.tests = []) :
    innerStep d tick (.iterator u) = .ok (.moveToNode (.mutation u)) := by
  simp only [innerStep, hts]

theorem innerStep_iterator_cons (d : InnerDeps) (tick : Nat) (u : UnitWorkItem)
    (t : TestCase) (ts : List TestCase) (hts : u.tests = t :: ts) :
    innerStep d tick (.iterator u)
      = .ok (.moveToNode (.red { u with tests := ts } t)) := by
  simp only [innerStep, hts]

theorem innerStep_green_eq (d : InnerDeps) (tick : Nat) (u : UnitWorkItem)
    (t : TestCase) (pf : String) (r : RatchetGreenResult)
    (hr : d.run_ratchet_green tick u t pf = .ok r) :
    innerStep d tick (.green u t pf)
      = if r.success = false then
          .ok (.nodeError ("Green phase failed for " ++ u.name ++ ": " ++ r.error))
        else .ok (.moveToNode (.iterator u)) := by
  simp only [innerStep, hr]
  rfl

theorem innerStep_green_error (d : InnerDeps) (tick : Nat) (u : UnitWorkItem)
    (t : TestCase) (pf : String) (e : String)
    (hr : d.run_ratchet_green tick u t pf = .error e) :
    innerStep d tick (.green u t pf) = .error e := by
  simp only [innerStep, hr]
  rfl

theorem innerStep_mutation_eq (d : InnerDeps) (tick : Nat) (u : UnitWorkItem)
    (r : MutationResult) (hr : d.run_mutation_testing tick u = .ok r) :
    innerStep d tick (.mutation u)
      = if r.success = false then
          .ok (.nodeError ("Mutation testing failed: " ++ r.error))
        else if r.score < 1 then
          .ok (.moveToNode (.sentinel u r.surviving_mutants))
        else .ok (.moveToNode (.optimization u)) := by
  simp only [innerStep, hr]
  rfl

theorem innerStep_mutation_error (d : InnerDeps) (tick : Nat) (u : UnitWorkItem)
    (e : String) (hr : d.run_mutation_testing tick u = .error e) :
    innerStep d tick (.mutation u) = .error e := by
  simp only [innerStep, hr]
  rfl

theorem innerStep_sentinel_nil (d : InnerDeps) (tick : Nat) (u : UnitWorkItem) :
    innerStep d tick (.sentinel u []) = .ok (.moveToNode (.mutation u)) := rfl

theorem innerStep_sentinel_cons (d : InnerDeps) (tick : Nat) (u : UnitWorkItem)
    (m : SurvivingMutant) (rest : List SurvivingMutant)
    (r : SentinelResult) (vr : VerificationResult)
    (hr : d.run_sentinel tick u m = .ok r)
    (hv : d.verify_mutant_killed tick u m.id = .ok vr) :
    innerStep d tick (.sentinel u (m :: rest))
      = if r.success = false then
          .ok (.nodeError ("Failed to kill mutant " ++ m.id ++ ": " ++ r.error))
        else if vr.killed = false then
          .ok (.nodeError ("Sentinel test failed to kill mutant " ++ m.id
            ++ ". Still surviving after new test added."))
        else if rest.isEmpty then .ok (.moveToNode (.mutation u))
        else .ok (.moveToNode (.sentinel u rest)) := by
  simp only [innerStep, hr, hv]
  rfl

theorem innerStep_sentinel_fail (d : InnerDeps) (tick : Nat) (u : UnitWorkItem)
    (m : SurvivingMutant) (rest : List SurvivingMutant) (r : SentinelResult)
    (hr : d.run_sentinel tick u m = .ok r) (hs : r.success = false) :
    innerStep d tick (.sentinel u (m :: rest))
      = .ok (.nodeError ("Failed to kill mutant " ++ m.id ++ ": " ++ r.error)) := by
  simp only [innerStep, hr]
  rw [bind_ok_eq, hs]
  simp
  rfl

theorem innerStep_sentinel_run_error (d : InnerDeps) (tick : Nat)
    (u : UnitWorkItem) (m : SurvivingMutant) (rest : List SurvivingMutant)
    (e : String) (hr : d.run_sentinel tick u m = .error e) :
    innerStep d tick (.sentinel u (m :: rest)) = .error e := by
  simp only [innerStep, hr]
  rfl

theorem innerStep_sentinel_verify_error (d : InnerDeps) (tick : Nat)
    (u : UnitWorkItem) (m : SurvivingMutant) (rest : List SurvivingMutant)
    (r : SentinelResult) (e : String)
    (hr : d.run_sentinel tick u m = .ok r) (hsucc : r.success = true)
    (hv : d.verify_mutant_killed tick u m.id = .error e) :
    innerStep d tick (.sentinel u (m :: rest)) = .error e := by
  simp only [innerStep, hr]
  rw [bind_ok_eq, hsucc]
  simp [hv, bind_error_eq]

theorem innerStep_opt_eq (d : InnerDeps) (tick : Nat) (u : UnitWorkItem)
    (o : String) (b : Bool)
    (ho : d.agent_optimizer tick u.name u.code = .ok o)
    (hc : d.check_regression tick o = .ok b) :
    innerStep d tick (.optimization u)
      = if b then .ok (.moveToNode (.optimization u))
        else .ok (.finalResult o) := by
  simp only [innerStep, ho]
  rw [bind_ok_eq, hc, bind_ok_eq]
  cases b <;> rfl

theorem innerStep_opt_error (d : InnerDeps) (tick : Nat) (u : UnitWorkItem)
    (e : String) (ho : d.agent_optimizer tick u.name u.code = .error e) :
    innerStep d tick (.optimization u) = .error e := by
  simp only [innerStep, ho]
  rw [bind_error_eq]

theorem innerStep_opt_check_error (d : InnerDeps) (tick : Nat)
    (u : UnitWorkItem) (o : String) (e : String)
    (ho : d.agent_optimizer tick u.name u.code = .ok o)
    (hc : d.check_regression tick o = .error e) :
    innerStep d tick (.optimization u) = .error e := by
  simp only [innerStep, ho]
  rw [bind_ok_eq, hc, bind_error_eq]

theorem redTests_contrib_front (d : InnerDeps) (tick : Nat) (node : InnerNode) :
    (∀ next, innerStep d tick node = .ok next →
      ∃ s0, redTestsOf [Ev.dispatched tick node] ++ (redPending next ++ s0)
        = redPending (.moveToNode node))
  ∧ (∃ s1, redTestsOf [Ev.dispatched tick node] ++ s1
      = redPending (.moveToNode node)) := by
  constructor
  · intro next h
    cases node with
    | iterator u =>
      cases hts : u.tests with
      | nil =>
        rw [innerStep_iterator_nil d tick u hts] at h
        cases h
        exact ⟨[], by simp [redTestsOf, redPending, hts]⟩
      | cons t ts =>
        rw [innerStep_iterator_cons d tick u t ts hts] at h
        cases h
        exact ⟨[], by simp [redTestsOf, redPending, hts]⟩
    | red u t =>
      cases hr : d.run_ratchet_red tick u t with
      | error e => rw [innerStep_red_error d tick u t e hr] at h; cases h
      | ok r =>
        rw [innerStep_red_eq d tick u t r hr] at h
        by_cases hs : r.success = false
        · rw [if_pos hs] at h
          cases h
          exact ⟨u.tests, by simp [redTestsOf, redPending]⟩
        · rw [if_neg hs] at h
          by_cases hg : r.skipped_green = true
          · rw [if_pos hg] at h
            cases h
            exact ⟨[], by simp [redTestsOf, redPending]⟩
          · rw [if_neg hg] at h
            cases h
            exact ⟨[], by simp [redTestsOf, redPending]⟩
    | green u t pf =>
      cases hr : d.run_ratchet_green tick u t pf with
      | error e => rw [innerStep_green_error d tick u t pf e hr] at h; cases h
      | ok r =>
        rw [innerStep_green_eq d tick u t pf r hr] at h
        by_cases hs : r.success = false
        · rw [if_pos hs] at h
          cases h
          exact ⟨u.tests, by simp [redTestsOf, redPending]⟩
        · rw [if_neg hs] at h
          cases h
          exact ⟨[], by simp [redTestsOf, redPending]⟩
    | mutation u =>
      cases hr : d.run_mutation_testing tick u with
      | error e => rw [innerStep_mutation_error d tick u e hr] at h; cases h
      | ok r =>
        rw [innerStep_mutation_eq d tick u r hr] at h
        by_cases hs : r.success = false
        · rw [if_pos hs] at h; cases h
          exact ⟨[], by simp [redTestsOf, redPending]⟩
        · rw [if_neg hs] at h
          by_cases hsc : r.score < 1
          · rw [if_pos hsc] at h; cases h
            exact ⟨[], by simp [redTestsOf, redPending]⟩
          · rw [if_neg hsc] at h; cases h
            exact ⟨[], by simp [redTestsOf, redPending]⟩
    | sentinel u ms =>
      cases ms with
      | nil =>
        rw [innerStep_sentinel_nil d tick u] at h
        cases h
        exact ⟨[], by simp [redTestsOf, redPending]⟩
      | cons m rest =>
        cases hr : d.run_sentinel tick u m with
        | error e => rw [innerStep_sentinel_run_error d tick u m rest e hr] at h; cases h
        | ok r =>
          by_cases hs : r.success = false
          · rw [innerStep_sentinel_fail d tick u m rest r hr hs] at h
            cases h
            exact ⟨[], by simp [redTestsOf, redPending]⟩
          · have hsucc : r.success = true := by
              cases hb : r.success
              · exact absurd hb hs
              · rfl
            cases hv : d.verify_mutant_killed tick u m.id with
            | error e =>
              rw [innerStep_sentinel_verify_error d tick u m rest r e hr hsucc hv] at h
              cases h
            | ok vr =>
              rw [innerStep_sentinel_cons d tick u m rest r vr hr hv] at h
              rw [if_neg hs] at h
              by_cases hk : vr.killed = false
              · rw [if_pos hk] at h; cases h
                exact ⟨[], by simp [redTestsOf, redPending]⟩
              · rw [if_neg hk] at h
                by_cases hre : rest.isEmpty
                · rw [if_pos hre] at h; cases h
                  exact ⟨[], by simp [redTestsOf, redPending]⟩
                · rw [if_neg hre] at h; cases h
                  exact ⟨[], by simp [redTestsOf, redPending]⟩
    | optimization u =>
      cases ho : d.agent_optimizer tick u.name u.code with
      | error e => rw [innerStep_opt_error d tick u e ho] at h; cases h
      | ok o =>
        cases hc : d.check_regression tick o with
        | error e => rw [innerStep_opt_check_error d tick u o e ho hc] at h; cases h
        | ok b =>
          rw [innerStep_opt_eq d tick u o b ho hc] at h
          cases b with
          | true => rw [if_pos rfl] at h; cases h
                    exact ⟨[], by simp [redTestsOf, redPending]⟩
          | false => simp only [if_neg Bool.false_ne_true] at h
                     cases h
                     exact ⟨[], by simp [redTestsOf, redPending]⟩
  · cases node with
    | iterator u => exact ⟨u.tests, by simp [redTestsOf, redPending]⟩
    | red u t => exact ⟨u.tests, by simp [redTestsOf, redPending]⟩
    | green u t pf => exact ⟨u.tests, by simp [redTestsOf, redPending]⟩
    | mutation u => exact ⟨[], by simp [redTestsOf, redPending]⟩
    | sentinel u ms => exact ⟨[], by simp [redTestsOf, redPending]⟩
    | optimization u => exact ⟨[], by simp [redTestsOf, redPending]⟩

theorem redTests_prefix_loop (d : InnerDeps) (fuel : Nat) :
    ∀ (cur : PyValue InnerNode String) (cp : Bool) (n tick : Nat),
    ∃ s, redTestsOf (graphLoop (innerStep d) cp fuel cur n tick).2 ++ s
      = redPending cur := by
  induction fuel with
  | zero =>
    intro cur cp n tick
    exact ⟨redPending cur, by simp [graphLoop, redTestsOf]⟩
  | succ f ih =>
    intro cur cp n tick
    cases cur with
    | moveToNode node =>
      cases hstep : innerStep d tick node with
      | error e =>
        have htr : (graphLoop (innerStep d) cp (f + 1) (.moveToNode node) n tick).2
            = (if cp then [Ev.savedCp n (.moveToNode node), Ev.dispatched tick node]
               else [Ev.dispatched tick node]) := by
          simp [graphLoop, PyValue.truthy, hstep]
        obtain ⟨s1, hs1⟩ := (redTests_contrib_front d tick node).2
        refine ⟨s1, ?_⟩
        rw [htr]
        cases cp <;> simpa [redTestsOf] using hs1
      | ok next =>
        have htr : (graphLoop (innerStep d) cp (f + 1) (.moveToNode node) n tick).2
            = (if cp then [Ev.savedCp n (.moveToNode node), Ev.dispatched tick node]
               else [Ev.dispatched tick node])
              ++ (graphLoop (innerStep d) cp f next (if cp then n + 1 else n) (tick + 1)).2 := by
          simp [graphLoop, PyValue.truthy, hstep]
        obtain ⟨s, hs⟩ := ih next cp (if cp then n + 1 else n) (tick + 1)
        obtain ⟨s0, h0⟩ := (redTests_contrib_front d tick node).1 next hstep
        refine ⟨s ++ s0, ?_⟩
        rw [htr, redTestsOf_append]
        have hc : redTestsOf
            (if cp then [Ev.savedCp n (.moveToNode node), Ev.dispatched tick node]
             else [Ev.dispatched tick node])
            = redTestsOf [Ev.dispatched tick node] := by
          cases cp <;> simp [redTestsOf]
        rw [hc, ← h0, ← hs]
        simp [List.append_assoc]
    | finalResult v =>
      exact ⟨[], by simp [graphLoop, PyValue.truthy, redTestsOf, redPending]⟩
    | nodeError e =>
      exact ⟨[], by simp [graphLoop, PyValue.truthy, redTestsOf, redPending]⟩
    | other b =>
      cases b with
      | false => exact ⟨[], by simp [graphLoop, PyValue.truthy, redTestsOf, redPending]⟩
      | true =>
        have hRHS : graphLoop (innerStep d) cp (f + 1) (PyValue.other true) n tick
            = graphLoop (innerStep d) cp f (PyValue.other true) n tick := by
          simp [graphLoop, PyValue.truthy]
        rw [hRHS]
        exact ih (.other true) cp n tick

/-- Number of dispatches of the mutation-testing step in a trace: one per
mutation/sentinel re-verification cycle. -/
def mutationDispatchCount (t : List (Ev InnerNode String)) : Nat :=
  t.countP fun e => match e with
    | .dispatched _ (.mutation _) => true
    | _ => false

/-- Surviving mutant reported forever by the adversarial collaborators of
the C9 counterexample. -/
def mutantC9 : SurvivingMutant := ⟨"m", "diff"⟩

/-- Collaborators under which every mutation run reports one surviving
mutant with an imperfect score, every sentinel call succeeds, and every
verification reports the mutant killed: the re-verification loop then never
exits. -/
def depsC9 : InnerDeps :=
  ⟨fun _ _ _ => .ok ⟨true, "", "", 0, "out", false⟩,
   fun _ _ _ _ => .ok ⟨true, "", 0⟩,
   fun _ _ => .ok ⟨true, (1 : Rat) / 2, [mutantC9], 2, 1, ""⟩,
   fun _ _ _ => .ok ⟨true, "tests/test_fn.py", "", 0⟩,
   fun _ _ _ => .ok ⟨true, []⟩,
   fun _ _ _ => .ok "optimized",
   fun _ _ => .ok false⟩

/-- Work unit for the C9 counterexample (no pending test cases, so the inner
graph goes straight to the crucible). -/
def unitC9 : UnitWorkItem :=
  ⟨"pkg.mod.fn", [], "code", "src/pkg/mod.py", 1, 5, "function", [], "desc"⟩

theorem c9_step_mutation :
    innerStep depsC9 0 (.mutation unitC9)
      = .ok (.moveToNode (.sentinel unitC9 [mutantC9])) := by
  have h := innerStep_mutation_eq depsC9 0 unitC9
    ⟨true, (1 : Rat) / 2, [mutantC9], 2, 1, ""⟩ rfl
  rw [h]
  norm_num

theorem c9_step_mutation_any (tick : Nat) :
    innerStep depsC9 tick (.mutation unitC9)
      = .ok (.moveToNode (.sentinel unitC9 [mutantC9])) := by
  have h := innerStep_mutation_eq depsC9 tick unitC9
    ⟨true, (1 : Rat) / 2, [mutantC9], 2, 1, ""⟩ rfl
  rw [h]
  norm_num

theorem c9_step_sentinel_any (tick : Nat) :
    innerStep depsC9 tick (.sentinel unitC9 [mutantC9])
      = .ok (.moveToNode (.mutation unitC9)) := by
  have h := innerStep_sentinel_cons depsC9 tick unitC9 mutantC9 []
    ⟨true, "tests/test_fn.py", "", 0⟩ ⟨true, []⟩ rfl rfl
  rw [h]
  simp

theorem c9_cycle_count (k : Nat) :
    ∀ (n tick : Nat),
    mutationDispatchCount
      (graphLoop (innerStep depsC9) false (2 * k)
        (.moveToNode (.mutation unitC9)) n tick).2 = k := by
  induction k with
  | zero => intro n tick; rfl
  | succ k0 ih =>
    intro n tick
    have hf : 2 * (k0 + 1) = (2 * k0 + 1) + 1 := by ring
    rw [hf]
    have h1 := c9_step_mutation_any tick
    have h2 := c9_step_sentinel_any (tick + 1)
    have htr : (graphLoop (innerStep depsC9) false ((2 * k0 + 1) + 1)
        (.moveToNode (.mutation unitC9)) n tick).2
        = [Ev.dispatched tick (.mutation unitC9)]
          ++ ([Ev.dispatched (tick + 1) (.sentinel unitC9 [mutantC9])]
            ++ (graphLoop (innerStep depsC9) false (2 * k0)
                (.moveToNode (.mutation unitC9)) n (tick + 2)).2) := by
      simp [graphLoop, PyValue.truthy, h1, h2]
    rw [htr]
    simp only [mutationDispatchCount, List.countP_append] at ih ⊢
    simp [List.countP_cons]
    have := ih n (tick + 2)
    omega

/-- Counterexample to claim C9 as stated. The claim asserts the
mutation/sentinel re-verification loop repeats only until a perfect score is
reached or a hard ceiling on the number of cycles trips, so that the number
of mutation/sentinel cycles per unit is bounded. The node topology of
nodes.py contains no such ceiling: for every proposed bound there are
collaborator behaviours under which an inner run dispatches the
mutation-testing step more often. -/
theorem c9_counterexample :
    ¬ ∃ B : Nat, ∀ (d : InnerDeps) (u : UnitWorkItem) (fuel : Nat),
      mutationDispatchCount (innerRun d u fuel).2 ≤ B := by
  rintro ⟨B, hB⟩
  have hfirst : innerStep depsC9 0 (.iterator unitC9)
      = .ok (.moveToNode (.mutation unitC9)) :=
    innerStep_iterator_nil depsC9 0 unitC9 rfl
  have htr : (innerRun depsC9 unitC9 (2 * (B + 1) + 1)).2
      = Ev.startInvoked :: ([Ev.dispatched 0 (.iterator unitC9)]
        ++ (graphLoop (innerStep depsC9) false (2 * (B + 1))
            (.moveToNode (.mutation unitC9)) 1 1).2) := by
    simp [innerRun, runGraph, graphLoop, PyValue.truthy, hfirst]
  have hcount := c9_cycle_count (B + 1) 1 1
  have hle := hB depsC9 unitC9 (2 * (B + 1) + 1)
  rw [htr] at hle
  simp only [mutationDispatchCount, List.countP_cons, List.countP_append] at hle hcount
  simp at hle
  omega

/-- Claim C9 (amended): after the sentinel step has processed all surviving
mutants (or is entered with none) it loops back to mutation-testing, and the
mutation step exits the cycle to optimization exactly when a successful
mutation run reports a perfect score; but the node topology imposes no hard
ceiling on the number of cycles, so the number of mutation/sentinel cycles
per unit is bounded only by collaborator behaviour, not by the engine. -/
theorem c9_reverify_loop_structure (d : InnerDeps) (tick : Nat)
    (u : UnitWorkItem) (m : SurvivingMutant) (r : SentinelResult)
    (vr : VerificationResult) (rm : MutationResult) (B : Nat) :
    innerStep d tick (.sentinel u []) = .ok (.moveToNode (.mutation u))
  ∧ (d.run_sentinel tick u m = .ok r → r.success = true →
      d.verify_mutant_killed tick u m.id = .ok vr → vr.killed = true →
      innerStep d tick (.sentinel u [m]) = .ok (.moveToNode (.mutation u)))
  ∧ (d.run_mutation_testing tick u = .ok rm → rm.success = true →
      innerStep d tick (.mutation u)
        = if rm.score < 1 then .ok (.moveToNode (.sentinel u rm.surviving_mutants))
          else .ok (.moveToNode (.optimization u)))
  ∧ ∃ (d2 : InnerDeps) (u2 : UnitWorkItem) (fuel : Nat),
      B < mutationDispatchCount (innerRun d2 u2 fuel).2 := by
  refine ⟨innerStep_sentinel_nil d tick u, ?_, ?_, ?_⟩
  · intro hr hsucc hv hk
    rw [innerStep_sentinel_cons d tick u m [] r vr hr hv]
    simp [hsucc, hk]
  · intro hr hsucc
    rw [innerStep_mutation_eq d tick u rm hr]
    simp [hsucc]
  · refine ⟨depsC9, unitC9, 2 * (B + 1) + 1, ?_⟩
    have hfirst : innerStep depsC9 0 (.iterator unitC9)
        = .ok (.moveToNode (.mutation unitC9)) :=
      innerStep_iterator_nil depsC9 0 unitC9 rfl
    have htr : (innerRun depsC9 unitC9 (2 * (B + 1) + 1)).2
        = Ev.startInvoked :: ([Ev.dispatched 0 (.iterator unitC9)]
          ++ (graphLoop (innerStep depsC9) false (2 * (B + 1))
              (.moveToNode (.mutation unitC9)) 1 1).2) := by
      simp [innerRun, runGraph, graphLoop, PyValue.truthy, hfirst]
    have hcount := c9_cycle_count (B + 1) 1 1
    rw [htr]
    simp only [mutationDispatchCount, List.countP_cons, List.countP_append] at hcount ⊢
    simp
    omega

/-- Witness for the amended C9: under the adversarial collaborators, an
imperfect mutation score hands the single surviving mutant to the sentinel,
the sentinel hands control back to mutation-testing, and cycle counts exceed
any concrete bound (here 3). -/
theorem c9_reverify_loop_structure_witness :
    (depsC9.run_mutation_testing 0 unitC9
        = .ok ⟨true, (1 : Rat) / 2, [mutantC9], 2, 1, ""⟩
      ∧ depsC9.run_sentinel 0 unitC9 mutantC9 = .ok ⟨true, "tests/test_fn.py", "", 0⟩
      ∧ depsC9.verify_mutant_killed 0 unitC9 mutantC9.id = .ok ⟨true, []⟩)
  ∧ innerStep depsC9 0 (.sentinel unitC9 [mutantC9])
      = .ok (.moveToNode (.mutation unitC9))
  ∧ ∃ (d2 : InnerDeps) (u2 : UnitWorkItem) (fuel : Nat),
      3 < mutationDispatchCount (innerRun d2 u2 fuel).2 :=
  ⟨⟨rfl, rfl, rfl⟩,
    (c9_reverify_loop_structure depsC9 0 unitC9 mutantC9
      ⟨true, "tests/test_fn.py", "", 0⟩ ⟨true, []⟩
      ⟨true, (1 : Rat) / 2, [mutantC9], 2, 1, ""⟩ 3).2.1 rfl rfl rfl rfl,
    (c9_reverify_loop_structure depsC9 0 unitC9 mutantC9
      ⟨true, "tests/test_fn.py", "", 0⟩ ⟨true, []⟩
      ⟨true, (1 : Rat) / 2, [mutantC9], 2, 1, ""⟩ 3).2.2.2⟩

/-- Collaborators of the outer per-unit processing step
(`phase_oracle_node`): the oracle call, indexed by the unit index, and the
inner-graph collaborators used by the recursive `run_graph` invocation of
each unit. -/
structure OuterDeps where
  run_oracle : Nat → UnitWorkItem → Except String OracleResult
  inner : Nat → InnerDeps

/-- Observable events of `phase_oracle_node`, one block per processed
unit. -/
inductive OEv where
  | unitSkipped (name : String)
  | oracleCalled (name : String)
  | innerCompleted (name : String)
  | markerAdded (marker : String)
deriving DecidableEq, Repr

/-- Outcome of `phase_oracle_node`: the `FinalResult` carrying the
finished-unit markers, a returned `NodeError`, an exception propagating out
of the step (becoming `Fault` in the outer engine), a re-raised `NodeFailed`
from the inner engine, or fuel exhaustion of the embedded inner run. -/
inductive PhaseOut where
  | final (finished : List String)
  | nodeError (e : String)
  | raised (e : String)
  | nodeFailedRaised (ctx : String) (cause : String)
  | fuelOut
deriving DecidableEq, Repr

/-- Embedding of the `for i, unit in enumerate(state.unit_queue)` loop of
`phase_oracle_node`: skip non-testable units with a skipped marker, call the
oracle, run the inner graph to completion, append a finished marker, and
abort the remaining queue on `NodeErrored` (returning `NodeError`) or
`NodeFailed` (re-raising). -/
def phase_oracle_go (d : OuterDeps) (fuel : Nat) :
    List UnitWorkItem → Nat → List String → PhaseOut × List OEv
  | [], _i, finished => (.final finished, [])
  | u :: rest, i, finished =>
    if u.symbol_type = "function" ∨ u.symbol_type = "class" then
      match d.run_oracle i u with
      | .error e => (.raised e, [.oracleCalled u.name])
      | .ok r =>
        if r.success = false then
          (.nodeError ("Oracle failed for " ++ u.name ++ ": " ++ r.error),
            [.oracleCalled u.name])
        else
          match (innerRun (d.inner i)
              { u with description := r.description, tests := r.test_cases } fuel).1 with
          | .returned _code =>
            let marker := u.name ++ " (Verified)"
            let p := phase_oracle_go d fuel rest (i + 1) (finished ++ [marker])
            (p.1, .oracleCalled u.name :: .innerCompleted u.name
              :: .markerAdded marker :: p.2)
          | .returnedNone =>
            let marker := u.name ++ " (Verified)"
            let p := phase_oracle_go d fuel rest (i + 1) (finished ++ [marker])
            (p.1, .oracleCalled u.name :: .innerCompleted u.name
              :: .markerAdded marker :: p.2)
          | .errored e =>
            (.nodeError ("Critical failure building unit " ++ u.name ++ ": " ++ e),
              [.oracleCalled u.name, .innerCompleted u.name])
          | .failed ctx cause =>
            (.nodeFailedRaised ctx cause,
              [.oracleCalled u.name, .innerCompleted u.name])
          | .outOfFuel => (.fuelOut, [.oracleCalled u.name])
    else
      let marker := u.name ++ " (Skipped - " ++ u.symbol_type ++ ")"
      let p := phase_oracle_go d fuel rest (i + 1) (finished ++ [marker])
      (p.1, .unitSkipped u.name :: .markerAdded marker :: p.2)

/-- Embedding of `phase_oracle_node` applied to a project state with the
given unit queue and already-finished markers. -/
def phase_oracle_node (d : OuterDeps) (fuel : Nat) (queue : List UnitWorkItem)
    (finished : List String) : PhaseOut × List OEv :=
  phase_oracle_go d fuel queue 0 finished

/-- The unit a per-unit event block opens with (its skip event or its oracle
call). -/
def unitHeadName : OEv → Option String
  | .unitSkipped nm => some nm
  | .oracleCalled nm => some nm
  | _ => none

/-- Units opened during a phase-oracle run, in processing order. -/
def headNames (t : List OEv) : List String := t.filterMap unitHeadName

theorem headNames_front (d : OuterDeps) (fuel : Nat) :
    ∀ (queue : List UnitWorkItem) (i : Nat) (fin : List String),
    ∃ k, k ≤ queue.length
      ∧ headNames (phase_oracle_go d fuel queue i fin).2
        = (queue.take k).map UnitWorkItem.name := by
  intro queue
  induction queue with
  | nil => intro i fin; exact ⟨0, by simp, by simp [phase_oracle_go, headNames]⟩
  | cons u rest ih =>
    intro i fin
    by_cases ht : u.symbol_type = "function" ∨ u.symbol_type = "class"
    · cases ho : d.run_oracle i u with
      | error e =>
        refine ⟨1, by simp, ?_⟩
        simp only [phase_oracle_go]
        rw [if_pos ht, ho]
        simp [headNames, unitHeadName]
      | ok r =>
        by_cases hs : r.success = false
        · refine ⟨1, by simp, ?_⟩
          simp only [phase_oracle_go]
          rw [if_pos ht, ho]
          simp [hs, headNames, unitHeadName]
        · cases hi : (innerRun (d.inner i)
              { u with description := r.description, tests := r.test_cases } fuel).1 with
          | returned code =>
            obtain ⟨k, hk, he⟩ := ih (i + 1) (fin ++ [u.name ++ " (Verified)"])
            refine ⟨k + 1, by simpa using hk, ?_⟩
            simp only [phase_oracle_go]
            rw [if_pos ht, ho]
            simp [hs, hi, headNames, unitHeadName] at he ⊢
            exact he
          | returnedNone =>
            obtain ⟨k, hk, he⟩ := ih (i + 1) (fin ++ [u.name ++ " (Verified)"])
            refine ⟨k + 1, by simpa using hk, ?_⟩
            simp only [phase_oracle_go]
            rw [if_pos ht, ho]
            simp [hs, hi, headNames, unitHeadName] at he ⊢
            exact he
          | errored e =>
            refine ⟨1, by simp, ?_⟩
            simp only [phase_oracle_go]
            rw [if_pos ht, ho]
            simp [hs, hi, headNames, unitHeadName]
          | failed ctx cause =>
            refine ⟨1, by simp, ?_⟩
            simp only [phase_oracle_go]
            rw [if_pos ht, ho]
            simp [hs, hi, headNames, unitHeadName]
          | outOfFuel =>
            refine ⟨1, by simp, ?_⟩
            simp only [phase_oracle_go]
            rw [if_pos ht, ho]
            simp [hs, hi, headNames, unitHeadName]
    · obtain ⟨k, hk, he⟩ := ih (i + 1)
        (fin ++ [u.name ++ " (Skipped - " ++ u.symbol_type ++ ")"])
      refine ⟨k + 1, by simpa using hk, ?_⟩
      simp only [phase_oracle_go]
      rw [if_neg ht]
      simp [headNames, unitHeadName] at he ⊢
      exact he

/-- Claim C5: the per-unit processing step handles queued units strictly in
queue order (the units opened form a prefix of the queue, in order); a
non-testable unit is recorded with a skipped marker and processing
continues; for a testable unit the oracle is consulted first and the inner
unit graph is run to completion before the finished marker is appended and
the next unit starts; an inner `NodeErrored` (Signal) or `NodeFailed`
(Fault) aborts the remaining queue; and within an inner run the ratchet-red
steps consume the test cases strictly in generation order, front of the list
first. -/
theorem c5_per_unit_processing (d : OuterDeps) (fuel : Nat)
    (queue rest : List UnitWorkItem) (u : UnitWorkItem) (i : Nat)
    (fin : List String) (r : OracleResult) (code e ctx cause : String)
    (d2 : InnerDeps) (u2 : UnitWorkItem) :
    (∃ k, k ≤ queue.length
      ∧ headNames (phase_oracle_go d fuel queue i fin).2
        = (queue.take k).map UnitWorkItem.name)
  ∧ (¬ (u.symbol_type = "function" ∨ u.symbol_type = "class") →
      phase_oracle_go d fuel (u :: rest) i fin
        = ((phase_oracle_go d fuel rest (i + 1)
            (fin ++ [u.name ++ " (Skipped - " ++ u.symbol_type ++ ")"])).1,
          .unitSkipped u.name
            :: .markerAdded (u.name ++ " (Skipped - " ++ u.symbol_type ++ ")")
            :: (phase_oracle_go d fuel rest (i + 1)
                (fin ++ [u.name ++ " (Skipped - " ++ u.symbol_type ++ ")"])).2))
  ∧ ((u.symbol_type = "function" ∨ u.symbol_type = "class") →
      d.run_oracle i u = .ok r → r.success = true →
      (innerRun (d.inner i)
          { u with description := r.description, tests := r.test_cases } fuel).1
        = .returned code →
      phase_oracle_go d fuel (u :: rest) i fin
        = ((phase_oracle_go d fuel rest (i + 1) (fin ++ [u.name ++ " (Verified)"])).1,
          .oracleCalled u.name :: .innerCompleted u.name
            :: .markerAdded (u.name ++ " (Verified)")
            :: (phase_oracle_go d fuel rest (i + 1)
                (fin ++ [u.name ++ " (Verified)"])).2))
  ∧ ((u.symbol_type = "function" ∨ u.symbol_type = "class") →
      d.run_oracle i u = .ok r → r.success = true →
      (innerRun (d.inner i)
          { u with description := r.description, tests := r.test_cases } fuel).1
        = .errored e →
      phase_oracle_go d fuel (u :: rest) i fin
        = (.nodeError ("Critical failure building unit " ++ u.name ++ ": " ++ e),
          [.oracleCalled u.name, .innerCompleted u.name]))
  ∧ ((u.symbol_type = "function" ∨ u.symbol_type = "class") →
      d.run_oracle i u = .ok r → r.success = true →
      (innerRun (d.inner i)
          { u with description := r.description, tests := r.test_cases } fuel).1
        = .failed ctx cause →
      phase_oracle_go d fuel (u :: rest) i fin
        = (.nodeFailedRaised ctx cause,
          [.oracleCalled u.name, .innerCompleted u.name]))
  ∧ (∃ s, redTestsOf (innerRun d2 u2 fuel).2 ++ s = u2.tests) := by
  refine ⟨headNames_front d fuel queue i fin, ?_, ?_, ?_, ?_, ?_⟩
  · intro ht
    simp only [phase_oracle_go]
    rw [if_neg ht]
  · intro ht ho hsucc hi
    have hs : ¬ r.success = false := by simp [hsucc]
    simp only [phase_oracle_go]
    rw [if_pos ht, ho]
    simp [hs, hi]
  · intro ht ho hsucc hi
    have hs : ¬ r.success = false := by simp [hsucc]
    simp only [phase_oracle_go]
    rw [if_pos ht, ho]
    simp [hs, hi]
  · intro ht ho hsucc hi
    have hs : ¬ r.success = false := by simp [hsucc]
    simp only [phase_oracle_go]
    rw [if_pos ht, ho]
    simp [hs, hi]
  · obtain ⟨s, hs⟩ := redTests_prefix_loop d2 fuel
      (.moveToNode (.iterator u2)) false 1 0
    refine ⟨s, ?_⟩
    have htr : (innerRun d2 u2 fuel).2
        = Ev.startInvoked
          :: (graphLoop (innerStep d2) false fuel (.moveToNode (.iterator u2)) 1 0).2 := by
      simp [innerRun, runGraph]
    rw [htr]
    simpa [redTestsOf, redPending] using hs

/-- Test case for the C5 witness. -/
def tcC5 : TestCase := ⟨1, "computes the result", "test_fn"⟩

/-- Work unit for the C5 witness. -/
def unitC5 : UnitWorkItem :=
  ⟨"pkg.core.fn", [], "def fn", "src/pkg/core.py", 3, 9, "function", [], ""⟩

/-- Inner collaborators for the C5 witness: one red/green cycle succeeds,
mutation testing reports a perfect score, optimization passes. -/
def innerC5 : InnerDeps :=
  ⟨fun _ _ _ => .ok ⟨true, "tests/unit/pkg/core/test_fn.py", "", 0, "1 failed", false⟩,
   fun _ _ _ _ => .ok ⟨true, "", 0⟩,
   fun _ _ => .ok ⟨true, 1, [], 3, 3, ""⟩,
   fun _ _ _ => .ok ⟨true, "", "", 0⟩,
   fun _ _ _ => .ok ⟨true, []⟩,
   fun _ _ _ => .ok "optimized",
   fun _ _ => .ok false⟩

/-- Oracle output for the C5 witness. -/
def oracleResC5 : OracleResult := ⟨true, [tcC5], "desc", ""⟩

/-- Outer collaborators for the C5 witness. -/
def outerC5 : OuterDeps := ⟨fun _ _ => .ok oracleResC5, fun _ => innerC5⟩

/-- Witness for C5: a testable unit is processed by consulting the oracle,
running the inner graph to completion (reaching the optimized code), and
appending its Verified marker before the rest of the queue. -/
theorem c5_per_unit_processing_witness :
    ((unitC5.symbol_type = "function" ∨ unitC5.symbol_type = "class")
      ∧ outerC5.run_oracle 0 unitC5 = .ok oracleResC5
      ∧ oracleResC5.success = true
      ∧ (innerRun (outerC5.inner 0)
          { unitC5 with description := oracleResC5.description, tests := oracleResC5.test_cases }
          10).1 = .returned "optimized")
  ∧ phase_oracle_go outerC5 10 [unitC5] 0 []
      = ((phase_oracle_go outerC5 10 [] 1 ([] ++ [unitC5.name ++ " (Verified)"])).1,
        .oracleCalled unitC5.name :: .innerCompleted unitC5.name
          :: .markerAdded (unitC5.name ++ " (Verified)")
          :: (phase_oracle_go outerC5 10 [] 1 ([] ++ [unitC5.name ++ " (Verified)"])).2) :=
  ⟨⟨Or.inl rfl, rfl, rfl, by decide⟩,
    (c5_per_unit_processing outerC5 10 [] [] unitC5 0 [] oracleResC5
      "optimized" "" "" "" innerC5 unitC5).2.2.1 (Or.inl rfl) rfl rfl (by decide)⟩

/-! Bounded-retry agent loops: ratchet-red (agents/ratchet_red/agent.py),
ratchet-green (agents/ratchet_green/agent.py) with the coverage intersection
check (agents/ratchet_green/coverage.py), and the sentinel
(agents/crucible/sentinel.py). Each loop is embedded over an environment
assigning to each attempt index the observable outcome of that attempt
(agent errors, file-system checks, validator verdicts, pytest and coverage
results), and emits an event trace recording attempts, file rewinds, and
corrective feedback sent into the same agent conversation. -/

/-- Events of an agent retry loop: an attempt starts, the edits of the
failed attempt are rewound (`client.rewind_files`), corrective feedback with
the verifier failure detail is queried into the same conversation, the
attempt is accepted, or the loop gives up with a final error. -/
inductive AgEv where
  | attempt (i : Nat)
  | rewound
  | feedback (detail : String)
  | accepted
  | gaveUp (e : String)
deriving DecidableEq, Repr

/-- Observable outcome of one ratchet-red attempt: an exception while
querying the agent, whether a rewind checkpoint was captured, whether the
expected test file exists afterwards, the new entries of the test inventory,
the validator verdict, and the pytest outcome on the new test. -/
structure RedAttempt where
  agent_error : Option String
  checkpoint_captured : Bool
  file_exists : Bool
  new_tests : List String
  validation_valid : Bool
  validation_reason : String
  pytest_passes : Bool
  pytest_output : String
  arbiter_keep : Bool
deriving DecidableEq, Repr

/-- Embedding of the `while retries < max_retries` loop of
`run_ratchet_red`; `b` is the remaining budget `max_retries - retries`. The
message for a wrong inventory count omits the set of new test ids the Python
f-string appends. -/
def redGo (env : Nat → RedAttempt) (tfp : String) (max : Nat) :
    Nat → Nat → RatchetRedResult × List AgEv
  | 0, retries =>
    (⟨false, "", "Max retries exceeded", retries, "", false⟩, [])
  | b + 1, retries =>
    let a := env retries
    match a.agent_error with
    | some e =>
      if b = 0 then
        (⟨false, "", e, retries + 1, "", false⟩, [.attempt retries, .gaveUp e])
      else
        let p := redGo env tfp max b (retries + 1)
        (p.1, .attempt retries :: .feedback e :: p.2)
    | none =>
      if a.file_exists = false then
        let msg := "Test file was not created at expected path: " ++ tfp
        let rew : List AgEv := if a.checkpoint_captured then [.rewound] else []
        if b = 0 then
          (⟨false, "", msg, retries + 1, "", false⟩,
            .attempt retries :: rew ++ [.gaveUp msg])
        else
          let p := redGo env tfp max b (retries + 1)
          (p.1, .attempt retries :: rew ++ .feedback msg :: p.2)
      else if a.new_tests.length ≠ 1 then
        let msg := "Expected exactly 1 new test, got " ++ toString a.new_tests.length
        let rew : List AgEv := if a.checkpoint_captured then [.rewound] else []
        if b = 0 then
          (⟨false, "", msg, retries + 1, "", false⟩,
            .attempt retries :: rew ++ [.gaveUp msg])
        else
          let p := redGo env tfp max b (retries + 1)
          (p.1, .attempt retries :: rew ++ .feedback msg :: p.2)
      else if a.validation_valid = false then
        let rew : List AgEv := if a.checkpoint_captured then [.rewound] else []
        if b = 0 then
          (⟨false, "", "Test validation failed: " ++ a.validation_reason,
              retries + 1, "", false⟩,
            .attempt retries :: rew
              ++ [.gaveUp ("Test validation failed: " ++ a.validation_reason)])
        else
          let p := redGo env tfp max b (retries + 1)
          (p.1, .attempt retries :: rew ++ .feedback a.validation_reason :: p.2)
      else if a.pytest_passes then
        if 1 ≤ retries then
          if a.arbiter_keep then
            (⟨true, a.new_tests.headD "", "", retries, "", true⟩,
              [.attempt retries, .accepted])
          else
            let rew : List AgEv := if a.checkpoint_captured then [.rewound] else []
            (⟨true, "", "", retries, "", true⟩,
              .attempt retries :: rew ++ [.accepted])
        else
          let rew : List AgEv := if a.checkpoint_captured then [.rewound] else []
          if b = 0 then
            (⟨false, "", "Test passed but should fail", retries + 1, "", false⟩,
              .attempt retries :: rew ++ [.gaveUp "Test passed but should fail"])
          else
            let p := redGo env tfp max b (retries + 1)
            (p.1, .attempt retries :: rew
              ++ .feedback "The test passed but it should FAIL" :: p.2)
      else
        (⟨true, a.new_tests.headD "", "", retries, a.pytest_output, false⟩,
          [.attempt retries, .accepted])

/-- Embedding of `run_ratchet_red` for a given attempt environment, expected
test file path, and retry budget. -/
def run_ratchet_red (env : Nat → RedAttempt) (tfp : String) (max : Nat) :
    RatchetRedResult × List AgEv :=
  redGo env tfp max max 0

/-- All four acceptance checks of ratchet-red hold for an attempt: no agent
error, the expected test file exists, the inventory grew by exactly one
entry, the reviewer validated the test, and the test currently fails. -/
def redAccepting (a : RedAttempt) : Bool :=
  a.agent_error.isNone && a.file_exists && (a.new_tests.length == 1)
    && a.validation_valid && !a.pytest_passes

/-- Observable outcome of one ratchet-green attempt. -/
structure GreenAttempt where
  agent_error : Option String
  checkpoint_captured : Bool
  tests_pass : Bool
  pytest_output : String
  coverage_data : Option (List (String × List Nat))
  cov_output : String
deriving DecidableEq, Repr

/-- Python `str.endswith`: character-level suffix test. -/
def strEndsWith (s t : String) : Bool := t.data.isSuffixOf s.data

/-- File lookup of `check_coverage_intersection`: the first coverage entry
whose key matches the module path by suffix in either direction or
exactly. -/
def findFileData : List (String × List Nat) → String → Option (List Nat)
  | [], _ => none
  | (k, ml) :: rest, module_path =>
    if strEndsWith k module_path || strEndsWith module_path k || k = module_path then
      some ml
    else findFileData rest module_path

/-- Embedding of `check_coverage_intersection` (coverage.py): dead code is
the part of the missing lines of the matched file that lies inside the unit
line range `[start_line, end_line]`; an unmatched file yields no dead
code. -/
def check_coverage_intersection (cov : List (String × List Nat))
    (module_path : String) (start_line end_line : Nat) : List Nat :=
  match findFileData cov module_path with
  | none => []
  | some missing =>
    missing.filter fun ln => decide (start_line ≤ ln) && decide (ln ≤ end_line)

/-- Sorted, comma-separated rendering of dead-code line numbers, as in the
failure messages of ratchet-green. -/
def fmtLines (dead : List Nat) : String :=
  String.intercalate ", " ((dead.insertionSort (fun a b => a ≤ b)).map toString)

/-- Embedding of the `while retries < max_retries` loop of
`run_ratchet_green`; `b` is the remaining budget. The coverage feedback
message is abbreviated to its first line (the Python version appends source
snippets read from disk). -/
def greenGo (env : Nat → GreenAttempt) (mp : String) (sl el : Nat) (max : Nat) :
    Nat → Nat → RatchetGreenResult × List AgEv
  | 0, retries => (⟨false, "Max retries exceeded", retries⟩, [])
  | b + 1, retries =>
    let a := env retries
    match a.agent_error with
    | some e => (⟨false, e, retries⟩, [.attempt retries, .gaveUp e])
    | none =>
      if a.tests_pass then
        match a.coverage_data with
        | none =>
          (⟨false, "Coverage data could not be collected. Output:\n"
              ++ a.cov_output.take 500, retries⟩,
            [.attempt retries,
              .gaveUp ("Coverage data could not be collected. Output:\n"
                ++ a.cov_output.take 500)])
        | some cov =>
          let dead := check_coverage_intersection cov mp sl el
          if dead.isEmpty then
            (⟨true, "", retries⟩, [.attempt retries, .accepted])
          else if b = 0 then
            let rew : List AgEv := if a.checkpoint_captured then [.rewound] else []
            let msg := "Dead code on lines " ++ fmtLines dead ++ " after "
              ++ toString (retries + 1) ++ " attempts"
            (⟨false, msg, retries + 1⟩, .attempt retries :: rew ++ [.gaveUp msg])
          else
            let p := greenGo env mp sl el max b (retries + 1)
            (p.1, .attempt retries
              :: .feedback ("Coverage check failed: dead code on lines "
                ++ fmtLines dead) :: p.2)
      else if b = 0 then
        let rew : List AgEv := if a.checkpoint_captured then [.rewound] else []
        let msg := "Tests still failing after " ++ toString (retries + 1)
          ++ " attempts. Last output:\n" ++ a.pytest_output.take 500
        (⟨false, msg, retries + 1⟩, .attempt retries :: rew ++ [.gaveUp msg])
      else
        let p := greenGo env mp sl el max b (retries + 1)
        (p.1, .attempt retries :: .feedback a.pytest_output :: p.2)

/-- Embedding of `run_ratchet_green` for a given attempt environment, module
path, unit line range, and retry budget. -/
def run_ratchet_green (env : Nat → GreenAttempt) (mp : String) (sl el : Nat)
    (max : Nat) : RatchetGreenResult × List AgEv :=
  greenGo env mp sl el max max 0

/-- Both acceptance checks of ratchet-green hold for an attempt: no agent
error, the full test suite passes, and no line of the unit range is left
unexecuted. -/
def greenAccepting (mp : String) (sl el : Nat) (a : GreenAttempt) : Bool :=
  a.agent_error.isNone && a.tests_pass
    && (match a.coverage_data with
        | none => false
        | some cov => (check_coverage_intersection cov mp sl el).isEmpty)

/-- Observable outcome of one sentinel attempt. -/
structure SentAttempt where
  agent_error : Option String
  checkpoint_captured : Bool
  file_modified : Bool
  added_tests : Nat
deriving DecidableEq, Repr

/-- Embedding of the `while retries < max_retries` loop of `run_sentinel`;
`b` is the remaining budget. -/
def sentGo (env : Nat → SentAttempt) (tfp : String) (max : Nat) :
    Nat → Nat → SentinelResult × List AgEv
  | 0, retries => (⟨false, "", "Max retries exceeded", retries⟩, [])
  | b + 1, retries =>
    let a := env retries
    match a.agent_error with
    | some e =>
      if b = 0 then
        (⟨false, "", e, retries + 1⟩, [.attempt retries, .gaveUp e])
      else
        let p := sentGo env tfp max b (retries + 1)
        (p.1, .attempt retries :: .feedback e :: p.2)
    | none =>
      if a.file_modified = false then
        let msg := "Test file was not modified. Please add a new test."
        let rew : List AgEv := if a.checkpoint_captured then [.rewound] else []
        if b = 0 then
          (⟨false, "", msg, retries + 1⟩, .attempt retries :: rew ++ [.gaveUp msg])
        else
          let p := sentGo env tfp max b (retries + 1)
          (p.1, .attempt retries :: rew ++ .feedback msg :: p.2)
      else if a.added_tests = 0 then
        let msg := "No new test function was added."
        let rew : List AgEv := if a.checkpoint_captured then [.rewound] else []
        if b = 0 then
          (⟨false, "", msg, retries + 1⟩, .attempt retries :: rew ++ [.gaveUp msg])
        else
          let p := sentGo env tfp max b (retries + 1)
          (p.1, .attempt retries :: rew ++ .feedback msg :: p.2)
      else (⟨true, tfp, "", retries⟩, [.attempt retries, .accepted])

/-- Embedding of `run_sentinel` for a given attempt environment, test file
path, pre-existing test file check, and retry budget. -/
def run_sentinel (env : Nat → SentAttempt) (tfp : String)
    (test_file_exists : Bool) (max : Nat) : SentinelResult × List AgEv :=
  if test_file_exists = false then
    (⟨false, "", "Test file does not exist: " ++ tfp
        ++ ". The Ratchet phase should have created it.", 0⟩, [])
  else sentGo env tfp max max 0

/-- Feedback discipline of a retry trace: every attempt after the first is
preceded by a corrective feedback event since the previous attempt. -/
def fbDisc : Bool → List AgEv → Bool
  | _, [] => true
  | ok, .attempt _ :: rest => ok && fbDisc false rest
  | _, .feedback _ :: rest => fbDisc true rest
  | ok, .rewound :: rest => fbDisc ok rest
  | ok, .accepted :: rest => fbDisc ok rest
  | ok, .gaveUp _ :: rest => fbDisc ok rest

/-- Rewind-before-retry discipline of a retry trace: every corrective
feedback event is immediately preceded by a rewind of the failed attempt. -/
def noFeedbackWithoutRewind : List AgEv → Bool
  | [] => true
  | .rewound :: .feedback _ :: rest => noFeedbackWithoutRewind rest
  | .feedback _ :: _ => false
  | _ :: rest => noFeedbackWithoutRewind rest

theorem redGo_success_inv (env : Nat → RedAttempt) (tfp : String) (max : Nat) :
    ∀ (b retries : Nat),
    (redGo env tfp max b retries).1.success = true →
    (redGo env tfp max b retries).1.skipped_green = false →
    redAccepting (env (redGo env tfp max b retries).1.retries) = true
      ∧ (redGo env tfp max b retries).1.pytest_failure
          = (env (redGo env tfp max b retries).1.retries).pytest_output
      ∧ (redGo env tfp max b retries).1.test_file_path
          = (env (redGo env tfp max b retries).1.retries).new_tests.headD ""
      ∧ retries ≤ (redGo env tfp max b retries).1.retries
      ∧ (redGo env tfp max b retries).1.retries < retries + b
      ∧ ∀ i2, retries ≤ i2 → i2 < (redGo env tfp max b retries).1.retries →
          redAccepting (env i2) = false := by
  intro b
  induction b with
  | zero => intro retries hs _; simp [redGo] at hs
  | succ b0 ih =>
    intro retries hs hg
    cases hae : (env retries).agent_error with
    | some e =>
      by_cases hb : b0 = 0
      · have heq : (redGo env tfp max (b0 + 1) retries).1
            = ⟨false, "", e, retries + 1, "", false⟩ := by
          simp [redGo, hae, hb]
        rw [heq] at hs
        simp at hs
      · have heq : (redGo env tfp max (b0 + 1) retries).1
            = (redGo env tfp max b0 (retries + 1)).1 := by
          simp [redGo, hae, hb]
        rw [heq] at hs hg ⊢
        obtain ⟨h1, h2, h3, h4, h5, h6⟩ := ih (retries + 1) hs hg
        refine ⟨h1, h2, h3, by omega, by omega, ?_⟩
        intro i2 hi2 hlt
        rcases Nat.eq_or_lt_of_le hi2 with rfl | hgt
        · simp [redAccepting, hae]
        · exact h6 i2 (by omega) hlt
    | none =>
      by_cases hfe : (env retries).file_exists = false
      · by_cases hb : b0 = 0
        · have heq : (redGo env tfp max (b0 + 1) retries).1
              = ⟨false, "", "Test file was not created at expected path: " ++ tfp,
                retries + 1, "", false⟩ := by
            simp [redGo, hae, hfe, hb]
          rw [heq] at hs
          simp at hs
        · have heq : (redGo env tfp max (b0 + 1) retries).1
              = (redGo env tfp max b0 (retries + 1)).1 := by
            simp [redGo, hae, hfe, hb]
          rw [heq] at hs hg ⊢
          obtain ⟨h1, h2, h3, h4, h5, h6⟩ := ih (retries + 1) hs hg
          refine ⟨h1, h2, h3, by omega, by omega, ?_⟩
          intro i2 hi2 hlt
          rcases Nat.eq_or_lt_of_le hi2 with rfl | hgt
          · simp [redAccepting, hfe]
          · exact h6 i2 (by omega) hlt
      · by_cases hcount : (env retries).new_tests.length = 1
        · by_cases hval : (env retries).validation_valid = false
          · by_cases hb : b0 = 0
            · have heq : (redGo env tfp max (b0 + 1) retries).1
                  = ⟨false, "",
                    "Test validation failed: " ++ (env retries).validation_reason,
                    retries + 1, "", false⟩ := by
                simp [redGo, hae, hfe, hcount, hval, hb]
              rw [heq] at hs
              simp at hs
            · have heq : (redGo env tfp max (b0 + 1) retries).1
                  = (redGo env tfp max b0 (retries + 1)).1 := by
                simp [redGo, hae, hfe, hcount, hval, hb]
              rw [heq] at hs hg ⊢
              obtain ⟨h1, h2, h3, h4, h5, h6⟩ := ih (retries + 1) hs hg
              refine ⟨h1, h2, h3, by omega, by omega, ?_⟩
              intro i2 hi2 hlt
              rcases Nat.eq_or_lt_of_le hi2 with rfl | hgt
              · simp [redAccepting, hval]
              · exact h6 i2 (by omega) hlt
          · by_cases hpass : (env retries).pytest_passes = true
            · by_cases hr1 : 1 ≤ retries
              · by_cases harb : (env retries).arbiter_keep = true
                · have heq : (redGo env tfp max (b0 + 1) retries).1
                      = ⟨true, (env retries).new_tests.headD "", "", retries, "", true⟩ := by
                    simp [redGo, hae, hfe, hcount, hval, hpass, hr1, harb]
                  rw [heq] at hg
                  simp at hg
                · have heq : (redGo env tfp max (b0 + 1) retries).1
                      = ⟨true, "", "", retries, "", true⟩ := by
                    simp [redGo, hae, hfe, hcount, hval, hpass, hr1, harb]
                  rw [heq] at hg
                  simp at hg
              · by_cases hb : b0 = 0
                · have heq : (redGo env tfp max (b0 + 1) retries).1
                      = ⟨false, "", "Test passed but should fail",
                        retries + 1, "", false⟩ := by
                    simp [redGo, hae, hfe, hcount, hval, hpass, hr1, hb]
                  rw [heq] at hs
                  simp at hs
                · have heq : (redGo env tfp max (b0 + 1) retries).1
                      = (redGo env tfp max b0 (retries + 1)).1 := by
                    simp [redGo, hae, hfe, hcount, hval, hpass, hr1, hb]
                  rw [heq] at hs hg ⊢
                  obtain ⟨h1, h2, h3, h4, h5, h6⟩ := ih (retries + 1) hs hg
                  refine ⟨h1, h2, h3, by omega, by omega, ?_⟩
                  intro i2 hi2 hlt
                  rcases Nat.eq_or_lt_of_le hi2 with rfl | hgt
                  · simp [redAccepting, hpass]
                  · exact h6 i2 (by omega) hlt
            · have heq : (redGo env tfp max (b0 + 1) retries).1
                  = ⟨true, (env retries).new_tests.headD "", "", retries,
                    (env retries).pytest_output, false⟩ := by
                simp [redGo, hae, hfe, hcount, hval, hpass]
              rw [heq]
              refine ⟨?_, rfl, rfl, Nat.le_refl _, by dsimp only; omega, ?_⟩
              · simp [redAccepting, hae, hcount, hval, hpass]
                cases hfeb : (env retries).file_exists
                · exact absurd hfeb hfe
                · simp
              · intro i2 hi2 hlt
                dsimp only at hlt
                omega
        · by_cases hb : b0 = 0
          · have heq : (redGo env tfp max (b0 + 1) retries).1
                = ⟨false, "",
                  "Expected exactly 1 new test, got "
                    ++ toString (env retries).new_tests.length,
                  retries + 1, "", false⟩ := by
              simp [redGo, hae, hfe, hcount, hb]
            rw [heq] at hs
            simp at hs
          · have heq : (redGo env tfp max (b0 + 1) retries).1
                = (redGo env tfp max b0 (retries + 1)).1 := by
              simp [redGo, hae, hfe, hcount, hb]
            rw [heq] at hs hg ⊢
            obtain ⟨h1, h2, h3, h4, h5, h6⟩ := ih (retries + 1) hs hg
            refine ⟨h1, h2, h3, by omega, by omega, ?_⟩
            intro i2 hi2 hlt
            rcases Nat.eq_or_lt_of_le hi2 with rfl | hgt
            · simp [redAccepting, hcount]
            · exact h6 i2 (by omega) hlt

/-- Claim C6: ratchet-red returns success carrying a pytest failure output
(the non-arbiter success path) only if, at the accepted attempt, all checks
hold: no agent error, the expected test file location exists, the set of
discoverable tests changed by exactly one new entry, the independent
reviewer confirmed the test, and running the test currently fails; the
returned pytest failure is exactly that attempt's pytest output; and the
`retries` field counts the failed attempts before the accepted one (every
earlier attempt was rejected, and the count stays below the budget). -/
theorem c6_ratchet_red_acceptance (env : Nat → RedAttempt) (tfp : String)
    (max : Nat)
    (hs : (run_ratchet_red env tfp max).1.success = true)
    (hg : (run_ratchet_red env tfp max).1.skipped_green = false) :
    redAccepting (env (run_ratchet_red env tfp max).1.retries) = true
  ∧ (run_ratchet_red env tfp max).1.pytest_failure
      = (env (run_ratchet_red env tfp max).1.retries).pytest_output
  ∧ (run_ratchet_red env tfp max).1.retries < max
  ∧ ∀ i, i < (run_ratchet_red env tfp max).1.retries →
      redAccepting (env i) = false := by
  obtain ⟨h1, h2, h3, h4, h5, h6⟩ := redGo_success_inv env tfp max max 0 hs hg
  exact ⟨h1, h2, by simpa using h5, fun i hi => h6 i (Nat.zero_le i) hi⟩

/-- Attempt environment for the C6 witness: attempt 0 adds zero new tests
(rejected by the count check), attempt 1 adds exactly one matching test that
fails as required. -/
def envC6 : Nat → RedAttempt := fun i =>
  if i = 0 then ⟨none, true, true, [], true, "", false, "", false⟩
  else ⟨none, true, true, ["tests/unit/pkg/test_fn.py::test_one"], true, "",
    false, "FAILED assert", false⟩

/-- Witness for C6: with the two-attempt environment the run succeeds with
`retries = 1`, the accepted attempt satisfies every check, and attempt 0 was
rejected. -/
theorem c6_ratchet_red_acceptance_witness :
    ((run_ratchet_red envC6 "tests/unit/pkg/test_fn.py" 3).1.success = true
      ∧ (run_ratchet_red envC6 "tests/unit/pkg/test_fn.py" 3).1.skipped_green = false
      ∧ (run_ratchet_red envC6 "tests/unit/pkg/test_fn.py" 3).1.retries = 1)
  ∧ redAccepting (envC6 (run_ratchet_red envC6 "tests/unit/pkg/test_fn.py" 3).1.retries)
      = true
  ∧ ∀ i, i < (run_ratchet_red envC6 "tests/unit/pkg/test_fn.py" 3).1.retries →
      redAccepting (envC6 i) = false :=
  ⟨⟨by decide, by decide, by decide⟩,
    (c6_ratchet_red_acceptance envC6 "tests/unit/pkg/test_fn.py" 3
      (by decide) (by decide)).1,
    fun i hi =>
      (c6_ratchet_red_acceptance envC6 "tests/unit/pkg/test_fn.py" 3
        (by decide) (by decide)).2.2.2 i hi⟩

theorem greenGo_success_inv (env : Nat → GreenAttempt) (mp : String)
    (sl el max : Nat) :
    ∀ (b r0 : Nat),
    (greenGo env mp sl el max b r0).1.success = true →
    greenAccepting mp sl el (env (greenGo env mp sl el max b r0).1.retries) = true
      ∧ r0 ≤ (greenGo env mp sl el max b r0).1.retries
      ∧ (greenGo env mp sl el max b r0).1.retries < r0 + b
      ∧ ∀ i2, r0 ≤ i2 → i2 < (greenGo env mp sl el max b r0).1.retries →
          greenAccepting mp sl el (env i2) = false := by
  intro b
  induction b with
  | zero => intro r0 hs; simp [greenGo] at hs
  | succ b0 ih =>
    intro r0 hs
    cases hae : (env r0).agent_error with
    | some e =>
      have heq : (greenGo env mp sl el max (b0 + 1) r0).1 = ⟨false, e, r0⟩ := by
        simp [greenGo, hae]
      rw [heq] at hs
      simp at hs
    | none =>
      by_cases hpass : (env r0).tests_pass = true
      · cases hcov : (env r0).coverage_data with
        | none =>
          have heq : (greenGo env mp sl el max (b0 + 1) r0).1
              = ⟨false, "Coverage data could not be collected. Output:\n"
                  ++ (env r0).cov_output.take 500, r0⟩ := by
            simp [greenGo, hae, hpass, hcov]
          rw [heq] at hs
          simp at hs
        | some cov =>
          by_cases hdead : (check_coverage_intersection cov mp sl el).isEmpty = true
          · have heq : (greenGo env mp sl el max (b0 + 1) r0).1 = ⟨true, "", r0⟩ := by
              simp [greenGo, hae, hpass, hcov, hdead]
            rw [heq]
            refine ⟨?_, Nat.le_refl _, by dsimp only; omega, ?_⟩
            · simp [greenAccepting, hae, hpass, hcov, hdead]
            · intro i2 hi2 hlt
              dsimp only at hlt
              omega
          · by_cases hb : b0 = 0
            · have heq : (greenGo env mp sl el max (b0 + 1) r0).1
                  = ⟨false, "Dead code on lines "
                      ++ fmtLines (check_coverage_intersection cov mp sl el)
                      ++ " after " ++ toString (r0 + 1) ++ " attempts", r0 + 1⟩ := by
                simp [greenGo, hae, hpass, hcov, hdead, hb]
              rw [heq] at hs
              simp at hs
            · have heq : (greenGo env mp sl el max (b0 + 1) r0).1
                  = (greenGo env mp sl el max b0 (r0 + 1)).1 := by
                simp [greenGo, hae, hpass, hcov, hdead, hb]
              rw [heq] at hs ⊢
              obtain ⟨h1, h2, h3, h4⟩ := ih (r0 + 1) hs
              refine ⟨h1, by omega, by omega, ?_⟩
              intro i2 hi2 hlt
              rcases Nat.eq_or_lt_of_le hi2 with rfl | hgt
              · simp [greenAccepting, hcov, hdead]
              · exact h4 i2 (by omega) hlt
      · by_cases hb : b0 = 0
        · have heq : (greenGo env mp sl el max (b0 + 1) r0).1
              = ⟨false, "Tests still failing after " ++ toString (r0 + 1)
                  ++ " attempts. Last output:\n" ++ (env r0).pytest_output.take 500,
                r0 + 1⟩ := by
            simp [greenGo, hae, hpass, hb]
          rw [heq] at hs
          simp at hs
        · have heq : (greenGo env mp sl el max (b0 + 1) r0).1
              = (greenGo env mp sl el max b0 (r0 + 1)).1 := by
            simp [greenGo, hae, hpass, hb]
          rw [heq] at hs ⊢
          obtain ⟨h1, h2, h3, h4⟩ := ih (r0 + 1) hs
          refine ⟨h1, by omega, by omega, ?_⟩
          intro i2 hi2 hlt
          rcases Nat.eq_or_lt_of_le hi2 with rfl | hgt
          · simp [greenAccepting, hpass]
          · exact h4 i2 (by omega) hlt

/-- Claim C7: ratchet-green accepts an implementation attempt only if the
full test suite passes and no line of the unit's original source range is
left unexecuted (dead code = missing lines intersected with
`[start_line, end_line]`): on success the accepted attempt satisfies both
checks and every earlier attempt failed at least one of them, with the retry
count below the budget; and an attempt whose tests all pass but which leaves
dead code in the range is rejected and retried with corrective coverage
feedback while budget remains. -/
theorem c7_ratchet_green_coverage_gate (env : Nat → GreenAttempt)
    (mp : String) (sl el max : Nat) (cov : List (String × List Nat))
    (b2 r0 : Nat) :
    ((run_ratchet_green env mp sl el max).1.success = true →
      greenAccepting mp sl el
          (env (run_ratchet_green env mp sl el max).1.retries) = true
        ∧ (run_ratchet_green env mp sl el max).1.retries < max
        ∧ ∀ i, i < (run_ratchet_green env mp sl el max).1.retries →
            greenAccepting mp sl el (env i) = false)
  ∧ ((env r0).agent_error = none → (env r0).tests_pass = true →
      (env r0).coverage_data = some cov →
      (check_coverage_intersection cov mp sl el).isEmpty = false →
      greenGo env mp sl el max (b2 + 2) r0
        = ((greenGo env mp sl el max (b2 + 1) (r0 + 1)).1,
          .attempt r0 :: .feedback ("Coverage check failed: dead code on lines "
            ++ fmtLines (check_coverage_intersection cov mp sl el))
            :: (greenGo env mp sl el max (b2 + 1) (r0 + 1)).2)) := by
  constructor
  · intro hs
    obtain ⟨h1, h2, h3, h4⟩ := greenGo_success_inv env mp sl el max max 0 hs
    exact ⟨h1, by simpa using h3, fun i hi => h4 i (Nat.zero_le i) hi⟩
  · intro hae hpass hcov hdead
    simp [greenGo, hae, hpass, hcov, hdead]

/-- Attempt environment for the C7 witness: attempt 0 passes all tests but
leaves line 5 of the unit range unexecuted; attempt 1 passes with full range
coverage. -/
def envC7 : Nat → GreenAttempt := fun i =>
  if i = 0 then
    ⟨none, true, true, "all passed", some [("/work/production/src/pkg/core.py", [5, 12])], "cov"⟩
  else
    ⟨none, true, true, "all passed", some [("/work/production/src/pkg/core.py", [12])], "cov"⟩

/-- Witness for C7: the first attempt passes the suite but is rejected for
dead code on line 5 and retried; the second attempt is accepted, so the run
succeeds with one counted retry. -/
theorem c7_ratchet_green_coverage_gate_witness :
    ((run_ratchet_green envC7 "src/pkg/core.py" 3 9 5).1.success = true
      ∧ (run_ratchet_green envC7 "src/pkg/core.py" 3 9 5).1.retries = 1
      ∧ (envC7 0).tests_pass = true
      ∧ (check_coverage_intersection
          [("/work/production/src/pkg/core.py", [5, 12])] "src/pkg/core.py" 3 9)
          = [5])
  ∧ greenAccepting "src/pkg/core.py" 3 9
      (envC7 (run_ratchet_green envC7 "src/pkg/core.py" 3 9 5).1.retries) = true
  ∧ ∀ i, i < (run_ratchet_green envC7 "src/pkg/core.py" 3 9 5).1.retries →
      greenAccepting "src/pkg/core.py" 3 9 (envC7 i) = false :=
  ⟨⟨by decide, by decide, by decide, by decide⟩,
    ((c7_ratchet_green_coverage_gate envC7 "src/pkg/core.py" 3 9 5 [] 0 0).1
      (by decide)).1,
    fun i hi =>
      ((c7_ratchet_green_coverage_gate envC7 "src/pkg/core.py" 3 9 5 [] 0 0).1
        (by decide)).2.2 i hi⟩

theorem redGo_retries_le (env : Nat → RedAttempt) (tfp : String) (max : Nat) :
    ∀ b r, (redGo env tfp max b r).1.retries ≤ r + b := by
  intro b
  induction b with
  | zero => intro r; simp [redGo]
  | succ b0 ih =>
    intro r
    have hih := ih (r + 1)
    cases hae : (env r).agent_error with
    | some e => by_cases hb : b0 = 0 <;> simp [redGo, hae, hb] <;> omega
    | none =>
      by_cases hfe : (env r).file_exists = false
      · by_cases hb : b0 = 0 <;> simp [redGo, hae, hfe, hb] <;> omega
      · by_cases hcount : (env r).new_tests.length = 1
        · by_cases hval : (env r).validation_valid = false
          · by_cases hb : b0 = 0 <;> simp [redGo, hae, hfe, hcount, hval, hb] <;> omega
          · by_cases hpass : (env r).pytest_passes = true
            · by_cases hr1 : 1 ≤ r
              · by_cases harb : (env r).arbiter_keep = true <;>
                  simp [redGo, hae, hfe, hcount, hval, hpass, hr1, harb] <;> omega
              · by_cases hb : b0 = 0 <;>
                  simp [redGo, hae, hfe, hcount, hval, hpass, hr1, hb] <;> omega
            · simp [redGo, hae, hfe, hcount, hval, hpass] <;> omega
        · by_cases hb : b0 = 0 <;> simp [redGo, hae, hfe, hcount, hb] <;> omega

theorem redGo_fbDisc (env : Nat → RedAttempt) (tfp : String) (max : Nat) :
    ∀ b r, fbDisc true (redGo env tfp max b r).2 = true := by
  intro b
  induction b with
  | zero => intro r; simp [redGo, fbDisc]
  | succ b0 ih =>
    intro r
    have hih := ih (r + 1)
    cases hae : (env r).agent_error with
    | some e => by_cases hb : b0 = 0 <;> simp [redGo, fbDisc, hae, hb, hih]
    | none =>
      by_cases hfe : (env r).file_exists = false
      · by_cases hb : b0 = 0 <;> by_cases hcp : (env r).checkpoint_captured = true <;>
          simp [redGo, fbDisc, hae, hfe, hb, hcp, hih]
      · by_cases hcount : (env r).new_tests.length = 1
        · by_cases hval : (env r).validation_valid = false
          · by_cases hb : b0 = 0 <;>
              by_cases hcp : (env r).checkpoint_captured = true <;>
              simp [redGo, fbDisc, hae, hfe, hcount, hval, hb, hcp, hih]
          · by_cases hpass : (env r).pytest_passes = true
            · by_cases hr1 : 1 ≤ r
              · by_cases harb : (env r).arbiter_keep = true <;>
                  by_cases hcp : (env r).checkpoint_captured = true <;>
                  simp [redGo, fbDisc, hae, hfe, hcount, hval, hpass, hr1, harb, hcp]
              · by_cases hb : b0 = 0 <;>
                  by_cases hcp : (env r).checkpoint_captured = true <;>
                  simp [redGo, fbDisc, hae, hfe, hcount, hval, hpass, hr1, hb, hcp, hih]
            · simp [redGo, fbDisc, hae, hfe, hcount, hval, hpass]
        · by_cases hb : b0 = 0 <;> by_cases hcp : (env r).checkpoint_captured = true <;>
            simp [redGo, fbDisc, hae, hfe, hcount, hb, hcp, hih]

theorem redGo_nfwr (env : Nat → RedAttempt) (tfp : String) (max : Nat)
    (hcap : ∀ i, (env i).agent_error = none ∧ (env i).checkpoint_captured = true) :
    ∀ b r, noFeedbackWithoutRewind (redGo env tfp max b r).2 = true := by
  intro b
  induction b with
  | zero => intro r; simp [redGo, noFeedbackWithoutRewind]
  | succ b0 ih =>
    intro r
    have hih := ih (r + 1)
    have hae := (hcap r).1
    have hcp := (hcap r).2
    by_cases hfe : (env r).file_exists = false
    · by_cases hb : b0 = 0 <;>
        simp [redGo, noFeedbackWithoutRewind, hae, hfe, hcp, hb, hih]
    · by_cases hcount : (env r).new_tests.length = 1
      · by_cases hval : (env r).validation_valid = false
        · by_cases hb : b0 = 0 <;>
            simp [redGo, noFeedbackWithoutRewind, hae, hfe, hcount, hval, hcp, hb, hih]
        · by_cases hpass : (env r).pytest_passes = true
          · by_cases hr1 : 1 ≤ r
            · by_cases harb : (env r).arbiter_keep = true <;>
                simp [redGo, noFeedbackWithoutRewind, hae, hfe, hcount, hval, hpass,
                  hr1, harb, hcp]
            · by_cases hb : b0 = 0 <;>
                simp [redGo, noFeedbackWithoutRewind, hae, hfe, hcount, hval, hpass,
                  hr1, hcp, hb, hih]
          · simp [redGo, noFeedbackWithoutRewind, hae, hfe, hcount, hval, hpass]
      · by_cases hb : b0 = 0 <;>
          simp [redGo, noFeedbackWithoutRewind, hae, hfe, hcount, hcp, hb, hih]

theorem greenGo_retries_le (env : Nat → GreenAttempt) (mp : String)
    (sl el max : Nat) :
    ∀ b r, (greenGo env mp sl el max b r).1.retries ≤ r + b := by
  intro b
  induction b with
  | zero => intro r; simp [greenGo]
  | succ b0 ih =>
    intro r
    have hih := ih (r + 1)
    cases hae : (env r).agent_error with
    | some e => simp [greenGo, hae] <;> omega
    | none =>
      by_cases hpass : (env r).tests_pass = true
      · cases hcov : (env r).coverage_data with
        | none => simp [greenGo, hae, hpass, hcov] <;> omega
        | some cov =>
          by_cases hdead : (check_coverage_intersection cov mp sl el).isEmpty = true
          · simp [greenGo, hae, hpass, hcov, hdead] <;> omega
          · by_cases hb : b0 = 0 <;>
              simp [greenGo, hae, hpass, hcov, hdead, hb] <;> omega
      · by_cases hb : b0 = 0 <;> simp [greenGo, hae, hpass, hb] <;> omega

theorem greenGo_fbDisc (env : Nat → GreenAttempt) (mp : String)
    (sl el max : Nat) :
    ∀ b r, fbDisc true (greenGo env mp sl el max b r).2 = true := by
  intro b
  induction b with
  | zero => intro r; simp [greenGo, fbDisc]
  | succ b0 ih =>
    intro r
    have hih := ih (r + 1)
    cases hae : (env r).agent_error with
    | some e => simp [greenGo, fbDisc, hae]
    | none =>
      by_cases hpass : (env r).tests_pass = true
      · cases hcov : (env r).coverage_data with
        | none => simp [greenGo, fbDisc, hae, hpass, hcov]
        | some cov =>
          by_cases hdead : (check_coverage_intersection cov mp sl el).isEmpty = true
          · simp [greenGo, fbDisc, hae, hpass, hcov, hdead]
          · by_cases hb : b0 = 0 <;>
              by_cases hcp : (env r).checkpoint_captured = true <;>
              simp [greenGo, fbDisc, hae, hpass, hcov, hdead, hb, hcp, hih]
      · by_cases hb : b0 = 0 <;> by_cases hcp : (env r).checkpoint_captured = true <;>
          simp [greenGo, fbDisc, hae, hpass, hb, hcp, hih]

theorem greenGo_rewound_failure (env : Nat → GreenAttempt) (mp : String)
    (sl el max : Nat) :
    ∀ b r, AgEv.rewound ∈ (greenGo env mp sl el max b r).2 →
      (greenGo env mp sl el max b r).1.success = false := by
  intro b
  induction b with
  | zero => intro r hmem; simp [greenGo] at hmem
  | succ b0 ih =>
    intro r hmem
    cases hae : (env r).agent_error with
    | some e =>
      have heq : (greenGo env mp sl el max (b0 + 1) r).1 = ⟨false, e, r⟩ := by
        simp [greenGo, hae]
      rw [heq]
    | none =>
      by_cases hpass : (env r).tests_pass = true
      · cases hcov : (env r).coverage_data with
        | none =>
          have heq : (greenGo env mp sl el max (b0 + 1) r).1
              = ⟨false, "Coverage data could not be collected. Output:\n"
                  ++ (env r).cov_output.take 500, r⟩ := by
            simp [greenGo, hae, hpass, hcov]
          rw [heq]
        | some cov =>
          by_cases hdead : (check_coverage_intersection cov mp sl el).isEmpty = true
          · have heq : (greenGo env mp sl el max (b0 + 1) r).2
                = [.attempt r, .accepted] := by
              simp [greenGo, hae, hpass, hcov, hdead]
            rw [heq] at hmem
            simp at hmem
          · by_cases hb : b0 = 0
            · have heq : (greenGo env mp sl el max (b0 + 1) r).1
                  = ⟨false, "Dead code on lines "
                      ++ fmtLines (check_coverage_intersection cov mp sl el)
                      ++ " after " ++ toString (r + 1) ++ " attempts", r + 1⟩ := by
                simp [greenGo, hae, hpass, hcov, hdead, hb]
              rw [heq]
            · have heq1 : (greenGo env mp sl el max (b0 + 1) r).1
                  = (greenGo env mp sl el max b0 (r + 1)).1 := by
                simp [greenGo, hae, hpass, hcov, hdead, hb]
              have heq2 : (greenGo env mp sl el max (b0 + 1) r).2
                  = .attempt r
                      :: .feedback ("Coverage check failed: dead code on lines "
                        ++ fmtLines (check_coverage_intersection cov mp sl el))
                      :: (greenGo env mp sl el max b0 (r + 1)).2 := by
                simp [greenGo, hae, hpass, hcov, hdead, hb]
              rw [heq2] at hmem
              rw [heq1]
              simp at hmem
              exact ih (r + 1) hmem
      · by_cases hb : b0 = 0
        · have heq : (greenGo env mp sl el max (b0 + 1) r).1
              = ⟨false, "Tests still failing after " ++ toString (r + 1)
                  ++ " attempts. Last output:\n" ++ (env r).pytest_output.take 500,
                r + 1⟩ := by
            simp [greenGo, hae, hpass, hb]
          rw [heq]
        · have heq1 : (greenGo env mp sl el max (b0 + 1) r).1
              = (greenGo env mp sl el max b0 (r + 1)).1 := by
            simp [greenGo, hae, hpass, hb]
          have heq2 : (greenGo env mp sl el max (b0 + 1) r).2
              = .attempt r :: .feedback (env r).pytest_output
                  :: (greenGo env mp sl el max b0 (r + 1)).2 := by
            simp [greenGo, hae, hpass, hb]
          rw [heq2] at hmem
          rw [heq1]
          simp at hmem
          exact ih (r + 1) hmem

theorem greenGo_exhaust (env : Nat → GreenAttempt) (mp : String)
    (sl el max : Nat)
    (hfail : ∀ i, (env i).agent_error = none ∧ (env i).tests_pass = false) :
    ∀ b r, 1 ≤ b →
    (greenGo env mp sl el max b r).1
      = ⟨false, "Tests still failing after " ++ toString (r + b)
          ++ " attempts. Last output:\n" ++ (env (r + b - 1)).pytest_output.take 500,
        r + b⟩ := by
  intro b
  induction b with
  | zero => intro r h; omega
  | succ b0 ih =>
    intro r _
    have hae := (hfail r).1
    have hpass : ¬ (env r).tests_pass = true := by simp [(hfail r).2]
    by_cases hb : b0 = 0
    · subst hb
      simp [greenGo, hae, hpass]
    · have heq : (greenGo env mp sl el max (b0 + 1) r).1
          = (greenGo env mp sl el max b0 (r + 1)).1 := by
        simp [greenGo, hae, hpass, hb]
      rw [heq, ih (r + 1) (by omega)]
      have harith : r + 1 + b0 = r + (b0 + 1) := by omega
      rw [harith]

theorem sentGo_retries_le (env : Nat → SentAttempt) (tfp : String) (max : Nat) :
    ∀ b r, (sentGo env tfp max b r).1.retries ≤ r + b := by
  intro b
  induction b with
  | zero => intro r; simp [sentGo]
  | succ b0 ih =>
    intro r
    have hih := ih (r + 1)
    cases hae : (env r).agent_error with
    | some e => by_cases hb : b0 = 0 <;> simp [sentGo, hae, hb] <;> omega
    | none =>
      by_cases hfm : (env r).file_modified = false
      · by_cases hb : b0 = 0 <;> simp [sentGo, hae, hfm, hb] <;> omega
      · by_cases hadd : (env r).added_tests = 0
        · by_cases hb : b0 = 0 <;> simp [sentGo, hae, hfm, hadd, hb] <;> omega
        · simp [sentGo, hae, hfm, hadd] <;> omega

theorem sentGo_fbDisc (env : Nat → SentAttempt) (tfp : String) (max : Nat) :
    ∀ b r, fbDisc true (sentGo env tfp max b r).2 = true := by
  intro b
  induction b with
  | zero => intro r; simp [sentGo, fbDisc]
  | succ b0 ih =>
    intro r
    have hih := ih (r + 1)
    cases hae : (env r).agent_error with
    | some e => by_cases hb : b0 = 0 <;> simp [sentGo, fbDisc, hae, hb, hih]
    | none =>
      by_cases hfm : (env r).file_modified = false
      · by_cases hb : b0 = 0 <;> by_cases hcp : (env r).checkpoint_captured = true <;>
          simp [sentGo, fbDisc, hae, hfm, hb, hcp, hih]
      · by_cases hadd : (env r).added_tests = 0
        · by_cases hb : b0 = 0 <;>
            by_cases hcp : (env r).checkpoint_captured = true <;>
            simp [sentGo, fbDisc, hae, hfm, hadd, hb, hcp, hih]
        · simp [sentGo, fbDisc, hae, hfm, hadd]

theorem sentGo_nfwr (env : Nat → SentAttempt) (tfp : String) (max : Nat)
    (hcap : ∀ i, (env i).agent_error = none ∧ (env i).checkpoint_captured = true) :
    ∀ b r, noFeedbackWithoutRewind (sentGo env tfp max b r).2 = true := by
  intro b
  induction b with
  | zero => intro r; simp [sentGo, noFeedbackWithoutRewind]
  | succ b0 ih =>
    intro r
    have hih := ih (r + 1)
    have hae := (hcap r).1
    have hcp := (hcap r).2
    by_cases hfm : (env r).file_modified = false
    · by_cases hb : b0 = 0 <;>
        simp [sentGo, noFeedbackWithoutRewind, hae, hfm, hcp, hb, hih]
    · by_cases hadd : (env r).added_tests = 0
      · by_cases hb : b0 = 0 <;>
          simp [sentGo, noFeedbackWithoutRewind, hae, hfm, hadd, hcp, hb, hih]
      · simp [sentGo, noFeedbackWithoutRewind, hae, hfm, hadd]

/-- Green-agent attempt environment refuting the uniform rewind-before-retry
policy: attempt 0 fails the test suite (with a checkpoint captured), attempt
1 is accepted; `run_ratchet_green` retries after attempt 0 with corrective
feedback but without any rewind. -/
def envC8g : Nat → GreenAttempt
  | 0 => ⟨none, true, false, "err1", none, ""⟩
  | _ + 1 => ⟨none, true, true, "", some [], ""⟩

/-- Red-agent attempt environment for the C8 witness: attempt 0 leaves the
test file missing (rejected, rewound, retried with feedback), attempt 1 is
accepted. -/
def envR8 : Nat → RedAttempt
  | 0 => ⟨none, true, false, [], true, "", false, "", false⟩
  | _ + 1 => ⟨none, true, true, ["tests/test_fn.py::test_one"], true, "",
      false, "FAILED assert", false⟩

/-- Green-agent attempt environment for the C8 witness: every attempt leaves
the suite failing, so the retry budget is exhausted. -/
def envG8 : Nat → GreenAttempt := fun _ => ⟨none, true, false, "boom", none, ""⟩

/-- Sentinel attempt environment for the C8 witness: attempt 0 does not
modify the test file (rejected, rewound, retried with feedback), attempt 1
adds one test and is accepted. -/
def envS8 : Nat → SentAttempt
  | 0 => ⟨none, true, false, 0⟩
  | _ + 1 => ⟨none, true, true, 1⟩

/-- Unsuccessful ratchet-red result for the C8 witness. -/
def rrC8 : RatchetRedResult := ⟨false, "", "no failing test", 3, "", false⟩

/-- Work unit for the C8 witness. -/
def unitC8 : UnitWorkItem :=
  ⟨"pkg.mod.g", [], "code", "src/pkg/mod.py", 1, 4, "function", [], "desc"⟩

/-- Test case for the C8 witness. -/
def tcC8 : TestCase := ⟨1, "case", "test_one"⟩

/-- Mutant for the C8 witness. -/
def mC8 : SurvivingMutant := ⟨"mut1", "diff"⟩

/-- Collaborators for the C8 witness whose ratchet-red run returns the
unsuccessful result `rrC8`. -/
def dC8 : InnerDeps :=
  ⟨fun _ _ _ => .ok rrC8,
   fun _ _ _ _ => .ok ⟨true, "", 0⟩,
   fun _ _ => .ok ⟨true, 1, [], 2, 2, ""⟩,
   fun _ _ _ => .ok ⟨true, "tests/test_fn.py", "", 0⟩,
   fun _ _ _ => .ok ⟨true, []⟩,
   fun _ _ _ => .ok "optimized",
   fun _ _ => .ok false⟩

/-- C8 (counterexample). The claim says the retry policy is uniform across
ratchet-red, ratchet-green and the sentinel, in particular that each agent
rewinds the failed attempt's file edits before every retry. Formalised as:
for all attempt environments in which no attempt raises and every attempt
captures a rewind checkpoint, each of the three retry traces satisfies the
rewind-before-feedback discipline. This is false: `envC8g` makes
ratchet-green retry after a failed attempt with corrective feedback but no
rewind (agent.py rewinds only when the budget is exhausted). -/
theorem c8_counterexample :
    ¬ (∀ (envR : Nat → RedAttempt) (envG : Nat → GreenAttempt)
        (envS : Nat → SentAttempt) (tfp mp : String) (sl el maxR maxG maxS : Nat),
        (∀ i, (envR i).agent_error = none ∧ (envR i).checkpoint_captured = true) →
        (∀ i, (envG i).agent_error = none ∧ (envG i).checkpoint_captured = true) →
        (∀ i, (envS i).agent_error = none ∧ (envS i).checkpoint_captured = true) →
        noFeedbackWithoutRewind (run_ratchet_red envR tfp maxR).2 = true
          ∧ noFeedbackWithoutRewind (run_ratchet_green envG mp sl el maxG).2 = true
          ∧ noFeedbackWithoutRewind (run_sentinel envS tfp true maxS).2 = true) := by
  intro h
  have hg := (h (fun _ => ⟨none, true, true, ["t"], true, "", false, "out", false⟩)
      envC8g (fun _ => ⟨none, true, true, 1⟩) "t.py" "m.py" 1 2 2 2 2
      (fun _ => ⟨rfl, rfl⟩)
      (fun i => by cases i <;> exact ⟨rfl, rfl⟩)
      (fun _ => ⟨rfl, rfl⟩)).2.1
  exact absurd hg (by decide)

/-- C8 (amended). The local retry policy of ratchet-red, ratchet-green and
the sentinel: every run uses a bounded number of attempts (`retries` never
exceeds the budget); the verifier's failure detail is injected as corrective
feedback into the conversation on each retry; ratchet-red and the sentinel
rewind the failed attempt's file edits before every validation-failure retry
(when no attempt raises and a rewind checkpoint was captured), while
ratchet-green leaves the failed attempt's edits in place between retries and
rewinds only on a failing run (budget exhaustion); exhausting the
ratchet-green budget returns a failure carrying the last pytest output
truncated to 500 characters; and each calling node converts an unsuccessful
result into an ErrorSignal carrying the agent's failure detail. -/
theorem c8_retry_policy (envR : Nat → RedAttempt) (envG : Nat → GreenAttempt)
    (envS : Nat → SentAttempt) (tfp mp : String) (sl el maxR maxG maxS : Nat)
    (d : InnerDeps) (tick : Nat) (u : UnitWorkItem) (tc : TestCase)
    (pf : String) (m : SurvivingMutant) (ms : List SurvivingMutant)
    (rr : RatchetRedResult) (rg : RatchetGreenResult) (rs : SentinelResult) :
    ((run_ratchet_red envR tfp maxR).1.retries ≤ maxR
      ∧ (run_ratchet_green envG mp sl el maxG).1.retries ≤ maxG
      ∧ (run_sentinel envS tfp true maxS).1.retries ≤ maxS)
  ∧ (fbDisc true (run_ratchet_red envR tfp maxR).2 = true
      ∧ fbDisc true (run_ratchet_green envG mp sl el maxG).2 = true
      ∧ fbDisc true (run_sentinel envS tfp true maxS).2 = true)
  ∧ ((∀ i, (envR i).agent_error = none ∧ (envR i).checkpoint_captured = true) →
      noFeedbackWithoutRewind (run_ratchet_red envR tfp maxR).2 = true)
  ∧ ((∀ i, (envS i).agent_error = none ∧ (envS i).checkpoint_captured = true) →
      noFeedbackWithoutRewind (run_sentinel envS tfp true maxS).2 = true)
  ∧ (AgEv.rewound ∈ (run_ratchet_green envG mp sl el maxG).2 →
      (run_ratchet_green envG mp sl el maxG).1.success = false)
  ∧ ((∀ i, (envG i).agent_error = none ∧ (envG i).tests_pass = false) →
      1 ≤ maxG →
      (run_ratchet_green envG mp sl el maxG).1
        = ⟨false, "Tests still failing after " ++ toString maxG
            ++ " attempts. Last output:\n"
            ++ (envG (maxG - 1)).pytest_output.take 500, maxG⟩)
  ∧ (d.run_ratchet_red tick u tc = .ok rr → rr.success = false →
      innerStep d tick (.red u tc)
        = .ok (.nodeError ("Red phase failed for " ++ u.name ++ ": " ++ rr.error)))
  ∧ (d.run_ratchet_green tick u tc pf = .ok rg → rg.success = false →
      innerStep d tick (.green u tc pf)
        = .ok (.nodeError ("Green phase failed for " ++ u.name ++ ": " ++ rg.error)))
  ∧ (d.run_sentinel tick u m = .ok rs → rs.success = false →
      innerStep d tick (.sentinel u (m :: ms))
        = .ok (.nodeError ("Failed to kill mutant " ++ m.id ++ ": " ++ rs.error))) := by
  refine ⟨⟨?_, ?_, ?_⟩, ⟨?_, ?_, ?_⟩, ?_, ?_, ?_, ?_, ?_, ?_, ?_⟩
  · simpa [run_ratchet_red] using redGo_retries_le envR tfp maxR maxR 0
  · simpa [run_ratchet_green] using greenGo_retries_le envG mp sl el maxG maxG 0
  · simpa [run_sentinel] using sentGo_retries_le envS tfp maxS maxS 0
  · simpa [run_ratchet_red] using redGo_fbDisc envR tfp maxR maxR 0
  · simpa [run_ratchet_green] using greenGo_fbDisc envG mp sl el maxG maxG 0
  · simpa [run_sentinel] using sentGo_fbDisc envS tfp maxS maxS 0
  · intro hcap
    simpa [run_ratchet_red] using redGo_nfwr envR tfp maxR hcap maxR 0
  · intro hcap
    simpa [run_sentinel] using sentGo_nfwr envS tfp maxS hcap maxS 0
  · intro hmem
    exact greenGo_rewound_failure envG mp sl el maxG maxG 0 hmem
  · intro hfail h1
    simpa [run_ratchet_green] using greenGo_exhaust envG mp sl el maxG hfail maxG 0 h1
  · intro hr hs
    rw [innerStep_red_eq d tick u tc rr hr, if_pos hs]
  · intro hr hs
    rw [innerStep_green_eq d tick u tc pf rg hr, if_pos hs]
  · intro hr hs
    exact innerStep_sentinel_fail d tick u m ms rs hr hs

/-- Witness for C8 (amended): concrete runs showing the bounded budget, the
rewind-before-retry discipline of red and sentinel under captured
checkpoints, the exact ratchet-green exhaustion result with the truncated
last output, and the node conversion of an unsuccessful red result into an
ErrorSignal. -/
theorem c8_retry_policy_witness :
    (run_ratchet_red envR8 "tests/test_fn.py" 3).1.retries ≤ 3
  ∧ noFeedbackWithoutRewind (run_ratchet_red envR8 "tests/test_fn.py" 3).2 = true
  ∧ noFeedbackWithoutRewind (run_sentinel envS8 "tests/test_fn.py" true 3).2 = true
  ∧ (run_ratchet_green envG8 "src/pkg/mod.py" 1 4 3).1
      = ⟨false, "Tests still failing after " ++ toString 3
          ++ " attempts. Last output:\n"
          ++ (envG8 (3 - 1)).pytest_output.take 500, 3⟩
  ∧ innerStep dC8 0 (.red unitC8 tcC8)
      = .ok (.nodeError ("Red phase failed for " ++ unitC8.name ++ ": " ++ rrC8.error)) := by
  have H := c8_retry_policy envR8 envG8 envS8 "tests/test_fn.py" "src/pkg/mod.py"
    1 4 3 3 3 dC8 0 unitC8 tcC8 "pf" mC8 [] rrC8 ⟨true, "", 0⟩ ⟨true, "t", "", 0⟩
  refine ⟨H.1.1, ?_, ?_, ?_, ?_⟩
  · exact H.2.2.1 (fun i => by cases i <;> exact ⟨rfl, rfl⟩)
  · exact H.2.2.2.1 (fun i => by cases i <;> exact ⟨rfl, rfl⟩)
  · exact H.2.2.2.2.2.1 (fun i => ⟨rfl, rfl⟩) (by omega)
  · exact H.2.2.2.2.2.2.1 rfl rfl

end BreakFix
